import Mathlib

/-!
Shallow embedding of the grid-simulation cores of the Pico_NeoPixel repository
(src/game_of_life.py, src/langtons_ant.py, src/water_ripples.py,
src/sand_simulation.py, src/hourglass.py), together with proofs settling the
frozen claims about them.

Modelling conventions:
* `WIDTH = HEIGHT = 8` throughout, as in every script.
* Python lists of lists are modelled as total functions from indices; Life and
  ant paint grids as `Fin 8 → Fin 8 → ℕ` (cells are small non-negative ints in
  the source), water fields as `ℕ → ℕ → ℚ`, sand grids as
  `ℕ → ℕ → Option ℕ` (the id of the occupying grain, or empty).
* Python floats (water heights, the hourglass shape test) are modelled as exact
  rationals; `0.96 = 24/25`, `0.5 = 1/2`, `3.5 = 7/2`.
* Python `%` on ints is Euclidean remainder, which is `Int.emod` (`%` on `ℤ`).
* Calls to `random.randint(0,1)` are modelled by an oracle of booleans passed
  in as a parameter; theorems quantify over all oracles.
* Python object identity of sand grains is modelled by a numeric id `gid`;
  `SandSimulation.spawn_grain` uses the monotone `grain_count` counter as the
  fresh id, `Hourglass.fill_top` / `fill_bottom` use the fill index.
* Fallible Python operations (list indexing that can raise `IndexError`,
  `% 0` raising `ZeroDivisionError`) return `Option` / `Except`.
-/

set_option maxRecDepth 100000

-- =============================================================================
-- Game of Life (src/game_of_life.py)
-- =============================================================================

/-- A `WIDTH × HEIGHT` grid of integer cell values, indexed `grid y x`
(row-major, as `self.grid[y][x]` in the source). -/
abbrev Grid : Type := Fin 8 → Fin 8 → ℕ

/-- Wrap an integer coordinate onto the 8-wide torus: `i % WIDTH` with
Python's (Euclidean) remainder. -/
def wrap8 (i : ℤ) : Fin 8 :=
  ⟨(i % 8).toNat, by
    have h1 : 0 ≤ i % 8 := Int.emod_nonneg i (by norm_num)
    have h2 : i % 8 < 8 := Int.emod_lt_of_pos i (by norm_num)
    omega⟩

/-- Write value `v` at column `x`, row `y` of a grid
(`grid[y][x] = v` in the source). -/
def setCell (g : Grid) (x y : Fin 8) (v : ℕ) : Grid :=
  fun y' x' => if y' = y ∧ x' = x then v else g y' x'

/-- `GameOfLife.__init__` state: grid, generation, population, and the
bounded history of recent grid snapshots used for stagnation detection. -/
structure GameOfLife where
  grid : Grid
  generation : ℕ
  population : ℕ
  history : List Grid
deriving DecidableEq

/-- `GameOfLife.__init__`: all-dead grid, generation 0, population 0. -/
def GameOfLife.init : GameOfLife :=
  { grid := fun _ _ => 0, generation := 0, population := 0, history := [] }

/-- The eight `(dx, dy)` neighbor offsets enumerated by
`GameOfLife.count_neighbors` (dy outer, dx inner, skipping `(0,0)`). -/
def neighborOffsets : List (ℤ × ℤ) :=
  [(-1, -1), (0, -1), (1, -1), (-1, 0), (1, 0), (-1, 1), (0, 1), (1, 1)]

/-- `GameOfLife.count_neighbors`: sum of the eight toroidally wrapped
neighbor cell values of `(x, y)`. -/
def count_neighbors (g : Grid) (x y : Fin 8) : ℕ :=
  neighborOffsets.foldl
    (fun c d => c + g (wrap8 ((y : ℤ) + d.2)) (wrap8 ((x : ℤ) + d.1))) 0

/-- The per-cell rule applied inside `GameOfLife.step`: a live (`≠ 0`,
Python truthiness) cell survives with 2 or 3 neighbors (`neighbors in [2, 3]`),
a dead cell is born with exactly 3 neighbors. -/
def lifeCell (alive : ℕ) (neighbors : ℕ) : ℕ :=
  if alive ≠ 0 then (if neighbors = 2 ∨ neighbors = 3 then 1 else 0)
  else (if neighbors = 3 then 1 else 0)

/-- The fresh `new_grid` buffer computed by `GameOfLife.step` from the
(unmodified) current grid. -/
def newGrid (g : Grid) : Grid :=
  fun y x => lifeCell (g y x) (count_neighbors g x y)

/-- `GameOfLife.step`: swap in the freshly computed grid, recompute the
population, bump the generation, and append the new state to the history
(evicting the oldest once it exceeds `STAGNATION_CHECK = 10` entries). -/
def GameOfLife.step (s : GameOfLife) : GameOfLife :=
  { grid := newGrid s.grid
    generation := s.generation + 1
    population := ∑ y : Fin 8, ∑ x : Fin 8, newGrid s.grid y x
    history :=
      let h := s.history ++ [newGrid s.grid]
      if h.length > 10 then h.tail else h }

/-- The grid built by `GameOfLife.load_pattern`: start from an all-dead grid
and write each pattern cell at its offset position, wrapped onto the torus. -/
def loadGrid (pattern : List (List ℕ)) (ox oy : ℤ) : Grid :=
  pattern.enum.foldl
    (fun g yrow =>
      yrow.2.enum.foldl
        (fun g' xcell =>
          setCell g' (wrap8 ((xcell.1 : ℤ) + ox)) (wrap8 ((yrow.1 : ℤ) + oy)) xcell.2)
        g)
    (fun _ _ => 0)

/-- `GameOfLife.load_pattern`: replace the grid, reset generation and history.
Note the source does NOT recompute `self.population` here. -/
def GameOfLife.load_pattern (s : GameOfLife) (pattern : List (List ℕ))
    (ox oy : ℤ) : GameOfLife :=
  { grid := loadGrid pattern ox oy
    generation := 0
    population := s.population
    history := [] }

/-- `GameOfLife.randomize`: replace the grid with externally supplied random
contents (the random draw is the parameter), reset generation and history.
The source does NOT recompute `self.population` here either. -/
def GameOfLife.randomize (s : GameOfLife) (g : Grid) : GameOfLife :=
  { grid := g, generation := 0, population := s.population, history := [] }

/-- `GameOfLife.is_dead`: `self.population == 0`. -/
def GameOfLife.is_dead (s : GameOfLife) : Bool :=
  s.population == 0

/-- The number of live cells actually present in a grid (what
`GameOfLife.is_dead`'s docstring "all cells are dead" refers to). -/
def liveCount (g : Grid) : ℕ :=
  ∑ y : Fin 8, ∑ x : Fin 8, (if g y x ≠ 0 then 1 else 0)

/-- The `BLINKER` pattern from src/game_of_life.py. -/
def BLINKER : List (List ℕ) := [[1, 1, 1]]

/-- The blinker loaded at its catalog offset `(2, 3)`
(`PATTERNS['blinker'] = (BLINKER, 2, 3)`). -/
def blinkerState : GameOfLife :=
  GameOfLife.init.load_pattern BLINKER 2 3

/-- The Life rule exactly as the claim/spec words it: a cell is alive in the
output iff (it was alive and its neighbor count is 2 or 3) or (it was dead
and its neighbor count is exactly 3). -/
def specLifeCell (alive : Prop) (n : ℕ) : Prop :=
  (alive ∧ (n = 2 ∨ n = 3)) ∨ (¬alive ∧ n = 3)

/-- One full-grid pass writing the per-cell next states into a fresh all-dead
buffer, visiting cells in an arbitrary `order` (elements are `(x, y)`); used to
express that the tick is invariant under any permutation of evaluation order. -/
def stepPermGrid (order : List (Fin 8 × Fin 8)) (g : Grid) : Grid :=
  order.foldl (fun acc c => setCell acc c.1 c.2 (newGrid g c.2 c.1)) (fun _ _ => 0)

/-- One canonical complete evaluation order (every cell exactly once). -/
def allCells : List (Fin 8 × Fin 8) :=
  (List.finRange 8).foldr (fun x acc => ((List.finRange 8).map (fun y => (x, y))) ++ acc) []

-- =============================================================================
-- Langton's Ant (src/langtons_ant.py)
-- =============================================================================

/-- `DIRECTIONS`: direction vectors for UP, RIGHT, DOWN, LEFT. -/
def DIRECTIONS : List (ℤ × ℤ) := [(0, -1), (1, 0), (0, 1), (-1, 0)]

/-- `turn_right`: `(direction + 1) % 4`. -/
def turn_right (d : Fin 4) : Fin 4 :=
  ⟨(d.val + 1) % 4, by omega⟩

/-- `turn_left`: `(direction - 1) % 4`; on `0 ≤ d < 4` Python's remainder
agrees with `(d + 3) % 4`. -/
def turn_left (d : Fin 4) : Fin 4 :=
  ⟨(d.val + 3) % 4, by omega⟩

/-- The `Ant` class: integer position, facing (always kept in `0..3` by the
source, hence `Fin 4`), step counter. The color field plays no part in any
claim and is omitted. -/
structure Ant where
  x : ℤ
  y : ℤ
  direction : Fin 4
  steps : ℕ
deriving DecidableEq

/-- `DIRECTIONS[self.direction]` (the index is always in range). -/
def dirVec (d : Fin 4) : ℤ × ℤ :=
  DIRECTIONS.getD d.val (0, 0)

/-- `Ant.move`: advance one cell in the current facing, then either wrap
toroidally (`WRAP_EDGES`, passed as the `wrap` parameter) or bounce off each
wall, clamping the coordinate and reversing direction by 180°. -/
def Ant.move (wrap : Bool) (a : Ant) : Ant :=
  let d := dirVec a.direction
  let x1 := a.x + d.1
  let y1 := a.y + d.2
  if wrap then
    { x := x1 % 8, y := y1 % 8, direction := a.direction, steps := a.steps + 1 }
  else
    let p2 : ℤ × Fin 4 :=
      if x1 < 0 then ((0 : ℤ), turn_right (turn_right a.direction))
      else if x1 ≥ 8 then ((7 : ℤ), turn_right (turn_right a.direction))
      else (x1, a.direction)
    let p3 : ℤ × Fin 4 :=
      if y1 < 0 then ((0 : ℤ), turn_right (turn_right p2.2))
      else if y1 ≥ 8 then ((7 : ℤ), turn_right (turn_right p2.2))
      else (y1, p2.2)
    { x := p2.1, y := p3.1, direction := p3.2, steps := a.steps + 1 }

/-- `Ant(WIDTH // 2, HEIGHT // 2)`: the default ant at `(4, 4)` facing UP. -/
def Ant.start : Ant :=
  { x := 4, y := 4, direction := ⟨0, by omega⟩, steps := 0 }

/-- Python list indexing of an 8-element row/column list: indices `0..7`
read directly, `-8..-1` read from the end, anything else raises `IndexError`
(modelled as `none`). -/
def pyIdx (i : ℤ) : Option (Fin 8) :=
  if h : 0 ≤ i ∧ i < 8 then some ⟨i.toNat, by omega⟩
  else if h2 : -8 ≤ i ∧ i < 0 then some ⟨(i + 8).toNat, by omega⟩
  else none

/-- The `LangtonAnt` class (classic two-color ant). The `history` list feeds
only `is_cycling`, which no claim mentions; it stores opaque Python hashes and
is omitted. -/
structure LangtonAnt where
  grid : Grid
  ant : Ant
deriving DecidableEq

/-- `LangtonAnt.step`: read the cell under the ant, turn right and paint 1 on
a 0 cell (else turn left and paint 0), then move. Grid accesses use Python
list indexing and fail (`none`) when the ant is out of range. -/
def LangtonAnt.step (wrap : Bool) (s : LangtonAnt) : Option LangtonAnt := do
  let xi ← pyIdx s.ant.x
  let yi ← pyIdx s.ant.y
  let cell := s.grid yi xi
  let dir := if cell = 0 then turn_right s.ant.direction else turn_left s.ant.direction
  let v : ℕ := if cell = 0 then 1 else 0
  some { grid := setCell s.grid xi yi v
         ant := Ant.move wrap { s.ant with direction := dir } }

/-- Error conditions an `ExtendedAnt.step` can raise: an out-of-range grid
index, an out-of-range rule-string index, or `% 0`. -/
inductive AntErr where
  | gridOob : AntErr
  | ruleOob : AntErr
  | modZero : AntErr
deriving DecidableEq

/-- Lift an `Option` into `Except` with the given error. -/
def ofOpt (e : AntErr) : Option α → Except AntErr α
  | some a => .ok a
  | none => .error e

/-- The `ExtendedAnt` class: a rule string (list of characters), its cached
length `num_states`, a paint grid, and one ant at the center. -/
structure ExtendedAnt where
  rules : List Char
  num_states : ℕ
  grid : Grid
  ant : Ant
deriving DecidableEq

/-- `ExtendedAnt.__init__(rules)`: store the rule string and its length;
no validation of any kind is performed. -/
def ExtendedAnt.init (rules : List Char) : ExtendedAnt :=
  { rules := rules, num_states := rules.length, grid := fun _ _ => 0, ant := Ant.start }

/-- `ExtendedAnt.step`: look up the rule character for the paint state under
the ant (raising `IndexError` when out of range — checked before the rule
lookup, matching Python's evaluation order), turn right on 'R' and left on
anything else, advance the paint state by `(state + 1) % num_states`
(raising `ZeroDivisionError` when `num_states = 0`), and move. -/
def ExtendedAnt.step (wrap : Bool) (s : ExtendedAnt) : Except AntErr ExtendedAnt :=
  match pyIdx s.ant.x, pyIdx s.ant.y with
  | none, _ => Except.error AntErr.gridOob
  | some _, none => Except.error AntErr.gridOob
  | some xi, some yi =>
    let state := s.grid yi xi
    match s.rules.get? state with
    | none => Except.error AntErr.ruleOob
    | some rule =>
      let dir := if rule = 'R' then turn_right s.ant.direction
                 else turn_left s.ant.direction
      if s.num_states = 0 then Except.error AntErr.modZero
      else Except.ok { s with
        grid := setCell s.grid xi yi ((state + 1) % s.num_states)
        ant := Ant.move wrap { s.ant with direction := dir } }

/-- The `MultiAnt` class: several ants sharing one two-color grid. The random
construction of the ants is external input; claims quantify over the ants. -/
structure MultiAnt where
  grid : Grid
  ants : List Ant
deriving DecidableEq

/-- The per-ant body of `MultiAnt.step` (same rule as the classic ant),
returning the updated grid and ant. -/
def multiAntBody (wrap : Bool) (g : Grid) (a : Ant) : Option (Grid × Ant) := do
  let xi ← pyIdx a.x
  let yi ← pyIdx a.y
  let cell := g yi xi
  let dir := if cell = 0 then turn_right a.direction else turn_left a.direction
  let v : ℕ := if cell = 0 then 1 else 0
  some (setCell g xi yi v, Ant.move wrap { a with direction := dir })

/-- `MultiAnt.step`: all ants take one step, processed sequentially in list
order (each ant sees the grid writes of earlier ants in the same tick). -/
def MultiAnt.step (wrap : Bool) (s : MultiAnt) : Option MultiAnt := do
  let r ← s.ants.foldlM
    (fun (acc : Grid × List Ant) a => do
      let p ← multiAntBody wrap acc.1 a
      pure (p.1, acc.2 ++ [p.2]))
    (s.grid, ([] : List Ant))
  pure { grid := r.1, ants := r.2 }

/-- In-range predicate for an ant: both coordinates inside the 8×8 grid. -/
def antInRange (a : Ant) : Prop :=
  0 ≤ a.x ∧ a.x < 8 ∧ 0 ≤ a.y ∧ a.y < 8

instance (a : Ant) : Decidable (antInRange a) := by
  unfold antInRange; infer_instance

-- =============================================================================
-- Water ripples (src/water_ripples.py)
-- =============================================================================

/-- `WAVE_SPEED = 0.5`. -/
def WAVE_SPEED : ℚ := 1 / 2

/-- `DAMPING = 0.96`. -/
def DAMPING : ℚ := 24 / 25

/-- `WaterSimulation.__init__` state: per-cell height and velocity fields
(floats in the source, modelled as exact rationals), indexed `field y x`. -/
structure WaterSimulation where
  height : ℕ → ℕ → ℚ
  velocity : ℕ → ℕ → ℚ

/-- `WaterSimulation.__init__`: all-zero height and velocity. -/
def WaterSimulation.init : WaterSimulation :=
  { height := fun _ _ => 0, velocity := fun _ _ => 0 }

/-- `WaterSimulation.drop(x, y, strength)`: if `(x, y)` is in range, set
`height[y][x] = strength`; otherwise do nothing. -/
def WaterSimulation.drop (x y : ℤ) (strength : ℚ) (s : WaterSimulation) :
    WaterSimulation :=
  if 0 ≤ x ∧ x < 8 ∧ 0 ≤ y ∧ y < 8 then
    { height := fun y' x' =>
        if y' = y.toNat ∧ x' = x.toNat then strength else s.height y' x'
      velocity := s.velocity }
  else s

/-- The four axis-aligned neighbor heights sampled by
`WaterSimulation.update`; an out-of-range neighbor reflects the cell's own
height. -/
def wNeighbors (h : ℕ → ℕ → ℚ) (x y : ℕ) : List ℚ :=
  [((-1 : ℤ), (0 : ℤ)), (1, 0), (0, -1), (0, 1)].map fun d =>
    let nx := (x : ℤ) + d.1
    let ny := (y : ℤ) + d.2
    if 0 ≤ nx ∧ nx < 8 ∧ 0 ≤ ny ∧ ny < 8 then h ny.toNat nx.toNat else h y x

/-- The fresh `new_velocity` buffer of `WaterSimulation.update`:
`(velocity + (avg_neighbor_height - height) * WAVE_SPEED) * DAMPING`,
computed for every cell from the tick-start height field. -/
def wNewVelocity (s : WaterSimulation) : ℕ → ℕ → ℚ := fun y x =>
  let ns := wNeighbors s.height x y
  let avg := ns.sum / (ns.length : ℚ)
  let accel := (avg - s.height y x) * WAVE_SPEED
  (s.velocity y x + accel) * DAMPING

/-- `WaterSimulation.update`: commit the fresh velocity buffer, then add the
new velocity to every height. -/
def WaterSimulation.update (s : WaterSimulation) : WaterSimulation :=
  { height := fun y x => s.height y x + wNewVelocity s y x
    velocity := wNewVelocity s }

/-- The signed total height over the 64 cells. -/
def totalHeight (s : WaterSimulation) : ℚ :=
  ∑ y ∈ Finset.range 8, ∑ x ∈ Finset.range 8, s.height y x

/-- The total absolute height over the 64 cells (the quantity the claim says
strictly decreases and tends to zero). -/
def totalAbsHeight (s : WaterSimulation) : ℚ :=
  ∑ y ∈ Finset.range 8, ∑ x ∈ Finset.range 8, |s.height y x|

/-- The signed total velocity over the 64 cells. -/
def totalVelocity (s : WaterSimulation) : ℚ :=
  ∑ y ∈ Finset.range 8, ∑ x ∈ Finset.range 8, s.velocity y x

-- =============================================================================
-- Sand simulation and hourglass (src/sand_simulation.py, src/hourglass.py)
-- =============================================================================

/-- A sand grain (`SandGrain` in both scripts): a numeric id standing for
Python object identity, grid position, and the settled flag. The color field
plays no part in any claim and is omitted. -/
structure SGrain where
  gid : ℕ
  x : ℕ
  y : ℕ
  settled : Bool
deriving DecidableEq

/-- Combined state record for `SandSimulation` and `Hourglass`. Both classes
hold a grain list and a grid of per-cell grain references; `grain_count` and
`color_index` belong to `SandSimulation` (the latter only picks colors and is
omitted), `frame`/`flipped` belong to `Hourglass`. Each simulation's
operations read and write only its own fields. -/
structure PileState where
  grains : List SGrain
  grid : ℕ → ℕ → Option ℕ
  grain_count : ℕ := 0
  frame : ℕ := 0
  flipped : Bool := false

/-- Write a slot of a sand grid (`grid[y][x] = v`). -/
def setSlot (g : ℕ → ℕ → Option ℕ) (x y : ℕ) (v : Option ℕ) :
    ℕ → ℕ → Option ℕ :=
  fun y' x' => if y' = y ∧ x' = x then v else g y' x'

/-- Look a grain up by id (Python's direct object reference). -/
def findGrain (s : PileState) (i : ℕ) : Option SGrain :=
  s.grains.find? (fun g => g.gid == i)

/-- `SandSimulation.__init__` / `SandSimulation.reset`: no grains, empty
grid, zero counter. -/
def SandSimulation.init : PileState :=
  { grains := [], grid := fun _ _ => none, grain_count := 0 }

/-- `SandSimulation.spawn_grain`, with the randomly chosen empty top-row
column passed in as `x` (callers establish `grid[0][x] is None`): create a
grain at `(x, 0)`, register it in the grid, bump `grain_count`. The fresh id
is the current `grain_count`. -/
def SandSimulation.spawn_grain (x : ℕ) (s : PileState) : PileState :=
  { grains := s.grains ++ [⟨s.grain_count, x, 0, false⟩]
    grid := setSlot s.grid x 0 (some s.grain_count)
    grain_count := s.grain_count + 1
    frame := s.frame, flipped := s.flipped }

/-- `SandSimulation.move_grain` (and the line-identical
`Hourglass.move_grain`): clear the old slot, update the grain's coordinates,
set the new slot — a single transfer with no other effect. -/
def SandSimulation.move_grain (s : PileState) (i : ℕ) (nx ny : ℕ) : PileState :=
  match findGrain s i with
  | none => s
  | some g =>
    { grains := s.grains.map fun g' =>
        if g'.gid = i then { g' with x := nx, y := ny } else g'
      grid := setSlot (setSlot s.grid g.x g.y none) nx ny (some i)
      grain_count := s.grain_count, frame := s.frame, flipped := s.flipped }

/-- `Hourglass.move_grain` is textually the same code as
`SandSimulation.move_grain`. -/
def Hourglass.move_grain : PileState → ℕ → ℕ → ℕ → PileState :=
  SandSimulation.move_grain

/-- Set a grain's settled flag (`grain.settled = b`). -/
def setSettled (s : PileState) (i : ℕ) (b : Bool) : PileState :=
  { s with grains := s.grains.map fun g' =>
      if g'.gid = i then { g' with settled := b } else g' }

/-- Stable insertion into a list sorted by `y` descending (earlier list
elements stay in front of equal keys), mirroring Python's stable
`sorted(grains, key=lambda g: -g.y)`. -/
def insertYDesc (g : SGrain) : List SGrain → List SGrain
  | [] => [g]
  | h :: t => if h.y > g.y then h :: insertYDesc g t else g :: h :: t

/-- Stable sort by `y` descending. -/
def sortYDesc : List SGrain → List SGrain
  | [] => []
  | g :: t => insertYDesc g (sortYDesc t)

/-- Stable insertion into a list sorted by `y` ascending. -/
def insertYAsc (g : SGrain) : List SGrain → List SGrain
  | [] => [g]
  | h :: t => if h.y < g.y then h :: insertYAsc g t else g :: h :: t

/-- Stable sort by `y` ascending, mirroring Python's stable
`sorted(grains, key=lambda g: g.y)`. -/
def sortYAsc : List SGrain → List SGrain
  | [] => []
  | g :: t => insertYAsc g (sortYAsc t)

/-- The loop body of `SandSimulation.update` for one grain (identified by
id), with the `random.randint(0, 1)` draw for the left/right preference
passed as `coin` (`true` picks `[-1, 1]`). A settled grain is skipped
outright (`if grain.settled: continue`). -/
def SandSimulation.updateGrain (coin : Bool) (s : PileState) (i : ℕ) : PileState :=
  match findGrain s i with
  | none => s
  | some g =>
    if g.settled then s
    else
      let x := g.x
      let y := g.y
      if y + 1 < 8 ∧ s.grid (y + 1) x = none then
        SandSimulation.move_grain s i x (y + 1)
      else if y + 1 < 8 then
        let dirs : List ℤ := if coin then [-1, 1] else [1, -1]
        match dirs.find? (fun dx =>
          decide (0 ≤ (x : ℤ) + dx) && decide ((x : ℤ) + dx < 8) &&
          (s.grid (y + 1) ((x : ℤ) + dx).toNat).isNone) with
        | some dx => SandSimulation.move_grain s i ((x : ℤ) + dx).toNat (y + 1)
        | none => setSettled s i true
      else
        setSettled s i true

/-- `SandSimulation.update`: process the grains in order of decreasing `y`
(lower grains first), one oracle coin per processed grain. -/
def SandSimulation.update (coins : ℕ → Bool) (s : PileState) : PileState :=
  ((sortYDesc s.grains).map (fun g => g.gid)).enum.foldl
    (fun st p => SandSimulation.updateGrain (coins p.1) st p.2) s

/-- The grain-removal loop at the start of `run_waterfall`
(src/sand_simulation.py lines 334–337): every grain sitting at
`(WIDTH-1, HEIGHT-1)` is deleted from the grid and the grain list. -/
def waterfallRemove (s : PileState) : PileState :=
  { s with
    grains := s.grains.filter fun g => !(g.x == 7 && g.y == 7)
    grid := if s.grains.any (fun g => g.x == 7 && g.y == 7)
            then setSlot s.grid 7 7 none else s.grid }

/-- `in_hourglass(x, y)` from src/hourglass.py: diamond with a narrow neck,
computed with exact rationals in place of the source's floats
(`cx = 3.5 = 7/2`, `+0.5 = +1/2`). The `dy` computed by the source is unused
there and omitted. -/
def in_hourglass (x y : ℤ) : Bool :=
  let dx : ℚ := |(x : ℚ) - 7 / 2|
  if y < 4 then
    let m : ℚ := if y ≥ 3 then 1 else ((4 - y : ℤ) : ℚ) + 1 / 2
    decide (dx ≤ m)
  else
    let m : ℚ := if y ≤ 4 then 1 else ((y - 3 : ℤ) : ℚ) + 1 / 2
    decide (dx ≤ m)

/-- `Hourglass.can_move_to`: in range, inside the hourglass shape, and the
slot is empty. -/
def Hourglass.can_move_to (s : PileState) (x y : ℤ) : Bool :=
  decide (0 ≤ x ∧ x < 8) && decide (0 ≤ y ∧ y < 8) && in_hourglass x y &&
    (s.grid y.toNat x.toNat).isNone

/-- `Hourglass.get_gravity_targets`: straight fall in the gravity direction,
then the two diagonals, whose order is swapped when the
`random.randint(0, 1)` draw (`coin`) fires. -/
def Hourglass.get_gravity_targets (flipped coin : Bool) (x y : ℕ) :
    List (ℤ × ℤ) :=
  let dy : ℤ := if flipped then -1 else 1
  if coin then [((x : ℤ), y + dy), ((x : ℤ) + 1, y + dy), ((x : ℤ) - 1, y + dy)]
  else [((x : ℤ), y + dy), ((x : ℤ) - 1, y + dy), ((x : ℤ) + 1, y + dy)]

/-- The loop body of `Hourglass.update` for one grain: a settled grain is
first re-checked — if any gravity target is free it becomes unsettled; an
unsettled grain then moves to the first free target, or settles if there is
none. The source draws targets twice (once for the un-settle check, once for
the move); only the order differs between the two draws and the un-settle
check ignores order, so a single `coin` models both draws. -/
def Hourglass.updateGrain (coin : Bool) (s : PileState) (i : ℕ) : PileState :=
  match findGrain s i with
  | none => s
  | some g =>
    let targets := Hourglass.get_gravity_targets s.flipped coin g.x g.y
    let canFall := targets.any fun t => Hourglass.can_move_to s t.1 t.2
    if g.settled && !canFall then s
    else
      let s' := setSettled s i false
      match targets.find? (fun t => Hourglass.can_move_to s' t.1 t.2) with
      | some t => Hourglass.move_grain s' i t.1.toNat t.2.toNat
      | none => setSettled s i true

/-- `Hourglass.update`: bump the frame counter, then process grains in
gravity order (decreasing `y` when gravity points down, increasing when
flipped). The `any_moved` return value drives only the display loop and is
not modelled. -/
def Hourglass.update (coins : ℕ → Bool) (s : PileState) : PileState :=
  ((if s.flipped then sortYAsc s.grains else sortYDesc s.grains).map
      (fun g => g.gid)).enum.foldl
    (fun st p => Hourglass.updateGrain (coins p.1) st p.2)
    { s with frame := s.frame + 1 }

/-- `Hourglass.fill_top` / `Hourglass.fill_bottom`, with the (possibly
shuffled) chamber cell list passed in as `cells`: discard all grains, then
create one settled grain on each of the first `SAND_COUNT = 20` cells; the
grain id is the fill index. -/
def Hourglass.fill (cells : List (ℕ × ℕ)) (s : PileState) : PileState :=
  let grains := (cells.take 20).enum.map fun p =>
    (⟨p.1, p.2.1, p.2.2, true⟩ : SGrain)
  { grains := grains
    grid := grains.foldl (fun g gr => setSlot g gr.x gr.y (some gr.gid))
      (fun _ _ => none)
    grain_count := s.grain_count, frame := s.frame, flipped := s.flipped }

/-- `Hourglass.flip`: reverse gravity and clear every grain's settled flag. -/
def Hourglass.flip (s : PileState) : PileState :=
  { s with flipped := !s.flipped
           grains := s.grains.map fun g => { g with settled := false } }

/-- Sand-simulation states reachable through the operations the claims range
over: the initial/reset state, spawning into an empty top-row cell (as
`run_continuous`/`run_hourglass`/`run_waterfall` do), update ticks with any
coin oracle, the waterfall outlet removal, and `move_grain` calls under the
guard every call site establishes (the target cell is in range and free). -/
inductive SandReach : PileState → Prop
  | init : SandReach SandSimulation.init
  | spawn : ∀ {s} (x : ℕ), SandReach s → x < 8 → s.grid 0 x = none →
      SandReach (SandSimulation.spawn_grain x s)
  | update : ∀ {s} (coins : ℕ → Bool), SandReach s →
      SandReach (SandSimulation.update coins s)
  | remove : ∀ {s}, SandReach s → SandReach (waterfallRemove s)
  | move : ∀ {s} (i nx ny : ℕ) (g : SGrain), SandReach s → findGrain s i = some g →
      nx < 8 → ny < 8 → s.grid ny nx = none →
      SandReach (SandSimulation.move_grain s i nx ny)

/-- Hourglass states reachable through the operations the claims range over:
filling a chamber (the cell list is any duplicate-free list of in-range
cells, covering `fill_top` and `fill_bottom` with any shuffle), update ticks
with any coin oracle, and flips. -/
inductive HgReach : PileState → Prop
  | fill : ∀ (cells : List (ℕ × ℕ)) (s : PileState), cells.Nodup →
      (∀ c ∈ cells, c.1 < 8 ∧ c.2 < 8) → HgReach (Hourglass.fill cells s)
  | update : ∀ {s} (coins : ℕ → Bool), HgReach s →
      HgReach (Hourglass.update coins s)
  | flip : ∀ {s}, HgReach s → HgReach (Hourglass.flip s)

/-- The grain/grid ownership invariant of the claim: grain ids are unique,
every grain is in range with its grid slot pointing back at it, and every
occupied slot holds exactly the id of a grain standing there. The
`grain_count` bound gives spawn freshness. -/
def PileInv (s : PileState) : Prop :=
  (s.grains.map SGrain.gid).Nodup ∧
  (∀ g ∈ s.grains, g.x < 8 ∧ g.y < 8 ∧ s.grid g.y g.x = some g.gid) ∧
  (∀ y x i, s.grid y x = some i →
    ∃ g ∈ s.grains, g.gid = i ∧ g.x = x ∧ g.y = y) ∧
  (∀ g ∈ s.grains, g.gid < s.grain_count)

/-- `PileInv` without the `grain_count` bound (the hourglass never spawns,
so freshness is not needed there). -/
def PileInvCore (s : PileState) : Prop :=
  (s.grains.map SGrain.gid).Nodup ∧
  (∀ g ∈ s.grains, g.x < 8 ∧ g.y < 8 ∧ s.grid g.y g.x = some g.gid) ∧
  (∀ y x i, s.grid y x = some i →
    ∃ g ∈ s.grains, g.gid = i ∧ g.x = x ∧ g.y = y)


/-- A concrete waterfall-mode state: three settled grains piled in the
bottom-right corner — ids 0 at `(6,7)`, 1 at `(7,7)` (the outlet cell) and
2 at `(7,6)`, the last resting on the outlet grain. -/
def c3PreState : PileState :=
  { grains := [⟨0, 6, 7, true⟩, ⟨1, 7, 7, true⟩, ⟨2, 7, 6, true⟩]
    grid := fun y x =>
      if y = 7 ∧ x = 6 then some 0
      else if y = 7 ∧ x = 7 then some 1
      else if y = 6 ∧ x = 7 then some 2
      else none
    grain_count := 3 }

/-- `c3PreState` after `run_waterfall` removes the grain at the outlet
`(7,7)`: grain 2 is still settled at `(7,6)` while the cell below it is now
free. -/
def c3State : PileState := waterfallRemove c3PreState

/-- A small hourglass state: one settled grain at `(3,1)` with the cell
below it free and inside the hourglass shape. -/
def hgDemoState : PileState :=
  { grains := [⟨0, 3, 1, true⟩]
    grid := fun y x => if y = 1 ∧ x = 3 then some 0 else none }

-- =============================================================================
-- Theorems: Game of Life claims (C1, C5, C7)
-- =============================================================================

theorem lifeCell_ne_zero_iff (a n : ℕ) :
    lifeCell a n ≠ 0 ↔ specLifeCell (a ≠ 0) n := by
  unfold lifeCell specLifeCell
  by_cases h : a = 0 <;> by_cases h2 : n = 2 <;> by_cases h3 : n = 3 <;>
    simp [h, h2, h3]

theorem stepPermGrid_lookup (g : Grid) (order : List (Fin 8 × Fin 8)) :
    ∀ (acc : Grid) (x y : Fin 8),
      (order.foldl (fun a c => setCell a c.1 c.2 (newGrid g c.2 c.1)) acc) y x
        = if (x, y) ∈ order then newGrid g y x else acc y x := by
  induction order with
  | nil => simp
  | cons c rest ih =>
    intro acc x y
    have hacc : setCell acc c.1 c.2 (newGrid g c.2 c.1) y x
        = if (x, y) = c then newGrid g y x else acc y x := by
      rcases c with ⟨cx, cy⟩
      unfold setCell
      by_cases h1 : y = cy <;> by_cases h2 : x = cx <;>
        simp [h1, h2, Prod.ext_iff]
    rw [List.foldl_cons, ih, hacc]
    by_cases hr : (x, y) ∈ rest <;> by_cases hc : (x, y) = c <;>
      simp [hr, hc, List.mem_cons]

/-- C1: `GameOfLife.step` produces exactly the grid given by the Life rule
computed from a frozen snapshot of the input: a cell is alive in the output
iff (it was alive and its toroidal 8-neighbor count is 2 or 3) or (it was
dead and its count is exactly 3); the output grid is a deterministic
function of the input grid alone, and writing the per-cell next states in
any order that visits every cell (any permutation of evaluation order)
yields the same grid. -/
theorem c1_life_step_rule :
    (∀ (s : GameOfLife) (x y : Fin 8),
      (s.step.grid y x ≠ 0 ↔
        specLifeCell (s.grid y x ≠ 0) (count_neighbors s.grid x y)))
  ∧ (∀ (s : GameOfLife) (order : List (Fin 8 × Fin 8)), (∀ c, c ∈ order) →
      stepPermGrid order s.grid = s.step.grid)
  ∧ (∀ s t : GameOfLife, s.grid = t.grid → s.step.grid = t.step.grid) := by
  refine ⟨?_, ?_, ?_⟩
  · intro s x y
    exact lifeCell_ne_zero_iff _ _
  · intro s order h
    funext y x
    show stepPermGrid order s.grid y x = newGrid s.grid y x
    unfold stepPermGrid
    rw [stepPermGrid_lookup, if_pos (h (x, y))]
  · intro s t h
    show newGrid s.grid = newGrid t.grid
    rw [h]

set_option maxHeartbeats 4000000 in
/-- Witness for C1: a concrete complete evaluation order on the concrete
blinker state gives the same grid as `step`. -/
theorem c1_life_step_rule_witness :
    (∀ c : Fin 8 × Fin 8, c ∈ allCells) ∧
    stepPermGrid allCells blinkerState.grid = blinkerState.step.grid := by
  have h : ∀ c : Fin 8 × Fin 8, c ∈ allCells := by decide
  exact ⟨h, c1_life_step_rule.2.1 blinkerState allCells h⟩

set_option maxHeartbeats 4000000 in
/-- C5 (code bug): immediately after `load_pattern` of the non-empty blinker
pattern, before any `step`, the grid holds 3 live cells yet `is_dead()`
returns `True`, because `load_pattern` never recomputes the stale
`population` field that `is_dead` consults. -/
theorem c5_is_dead_stale_population :
    (GameOfLife.init.load_pattern BLINKER 2 3).is_dead = true ∧
    liveCount (GameOfLife.init.load_pattern BLINKER 2 3).grid = 3 := by decide

set_option maxHeartbeats 4000000 in
/-- C7: the 3-cell blinker loaded at offset `(2, 3)` (3 live cells and no
others) returns to the original grid after exactly two steps, and one step
does not reproduce it (exact period 2). -/
theorem c7_blinker_period_two :
    liveCount blinkerState.grid = 3 ∧
    blinkerState.step.step.grid = blinkerState.grid ∧
    blinkerState.step.grid ≠ blinkerState.grid := by decide

-- =============================================================================
-- Theorems: water claims (C2, C10)
-- =============================================================================

theorem intToNatLit (n : ℕ) :
    (no_index (OfNat.ofNat n) : ℤ).toNat = OfNat.ofNat n := rfl

theorem absIte (q : ℚ) : |q| = if q < 0 then -q else q := by
  by_cases h : q < 0
  · simp [h, abs_of_neg h]
  · simp [h, abs_of_nonneg (le_of_not_lt h)]

set_option maxHeartbeats 3000000 in
theorem totalVelocity_update (s : WaterSimulation) :
    totalVelocity (WaterSimulation.update s) = DAMPING * totalVelocity s := by
  unfold totalVelocity WaterSimulation.update wNewVelocity wNeighbors WAVE_SPEED DAMPING
  simp only [Finset.sum_range_succ, Finset.sum_range_zero, List.map_cons, List.map_nil,
    List.sum_cons, List.sum_nil, List.length_cons, List.length_nil]
  norm_num [intToNatLit, Int.toNat_one, Int.toNat_zero]
  ring

theorem totalHeight_update (s : WaterSimulation) :
    totalHeight (WaterSimulation.update s) =
      totalHeight s + totalVelocity (WaterSimulation.update s) := by
  unfold totalHeight totalVelocity WaterSimulation.update
  simp [Finset.sum_add_distrib]

theorem totalHeight_drop_init (x y : ℤ) (st : ℚ)
    (hx1 : 0 ≤ x) (hx2 : x < 8) (hy1 : 0 ≤ y) (hy2 : y < 8) :
    totalHeight (WaterSimulation.drop x y st WaterSimulation.init) = st := by
  have hX : x.toNat < 8 := by omega
  have hY : y.toNat < 8 := by omega
  unfold totalHeight WaterSimulation.drop WaterSimulation.init
  rw [if_pos ⟨hx1, hx2, hy1, hy2⟩]
  have hrow : ∀ y' : ℕ,
      (∑ x' ∈ Finset.range 8, if y' = y.toNat ∧ x' = x.toNat then st else (0 : ℚ))
        = if y' = y.toNat then st else 0 := by
    intro y'
    by_cases h : y' = y.toNat
    · simp only [h, true_and]
      rw [Finset.sum_ite_eq' (Finset.range 8) x.toNat fun _ => st]
      simp [Finset.mem_range, hX]
    · simp [h]
  simp only [hrow]
  rw [Finset.sum_ite_eq' (Finset.range 8) y.toNat fun _ => st]
  simp [Finset.mem_range, hY]

theorem totalVelocity_drop_init (x y : ℤ) (st : ℚ) :
    totalVelocity (WaterSimulation.drop x y st WaterSimulation.init) = 0 := by
  unfold totalVelocity WaterSimulation.drop WaterSimulation.init
  by_cases h : 0 ≤ x ∧ x < 8 ∧ 0 ≤ y ∧ y < 8 <;> simp [h]

theorem abs_totalHeight_le (s : WaterSimulation) :
    |totalHeight s| ≤ totalAbsHeight s := by
  unfold totalHeight totalAbsHeight
  calc |∑ y ∈ Finset.range 8, ∑ x ∈ Finset.range 8, s.height y x|
      ≤ ∑ y ∈ Finset.range 8, |∑ x ∈ Finset.range 8, s.height y x| :=
        Finset.abs_sum_le_sum_abs _ _
    _ ≤ ∑ y ∈ Finset.range 8, ∑ x ∈ Finset.range 8, |s.height y x| :=
        Finset.sum_le_sum fun i _ => Finset.abs_sum_le_sum_abs _ _

theorem water_drop_iterate (n : ℕ) (x y : ℤ) (st : ℚ)
    (hx1 : 0 ≤ x) (hx2 : x < 8) (hy1 : 0 ≤ y) (hy2 : y < 8) :
    totalHeight
        (WaterSimulation.update^[n] (WaterSimulation.drop x y st WaterSimulation.init)) = st ∧
    totalVelocity
        (WaterSimulation.update^[n] (WaterSimulation.drop x y st WaterSimulation.init)) = 0 := by
  induction n with
  | zero =>
    exact ⟨totalHeight_drop_init x y st hx1 hx2 hy1 hy2, totalVelocity_drop_init x y st⟩
  | succ n ih =>
    rw [Function.iterate_succ_apply']
    have hv : totalVelocity (WaterSimulation.update
        (WaterSimulation.update^[n] (WaterSimulation.drop x y st WaterSimulation.init))) = 0 := by
      rw [totalVelocity_update, ih.2, mul_zero]
    exact ⟨by rw [totalHeight_update, ih.1, hv, add_zero], hv⟩

/-- C2 (amended): the total absolute height does not strictly decrease tick
by tick and does not approach zero. `update` scales the signed total
velocity by the damping factor (so it stays `0` after a drop on the rest
field), which makes the signed total height invariant along that
trajectory: after `drop(x, y, strength)` with `strength > 0` on the all-zero
state, every iterate of `update` has total absolute height at least
`strength`. -/
theorem c2_water_energy_amended :
    (∀ s : WaterSimulation,
      totalVelocity (WaterSimulation.update s) = DAMPING * totalVelocity s)
  ∧ (∀ (n : ℕ) (x y : ℤ) (st : ℚ),
      0 ≤ x → x < 8 → 0 ≤ y → y < 8 → 0 < st →
      totalHeight
        (WaterSimulation.update^[n] (WaterSimulation.drop x y st WaterSimulation.init)) = st ∧
      st ≤ totalAbsHeight
        (WaterSimulation.update^[n] (WaterSimulation.drop x y st WaterSimulation.init))) := by
  refine ⟨totalVelocity_update, ?_⟩
  intro n x y st hx1 hx2 hy1 hy2 hst
  obtain ⟨hth, _⟩ := water_drop_iterate n x y st hx1 hx2 hy1 hy2
  refine ⟨hth, ?_⟩
  calc st = totalHeight (WaterSimulation.update^[n]
            (WaterSimulation.drop x y st WaterSimulation.init)) := hth.symm
    _ ≤ |totalHeight (WaterSimulation.update^[n]
            (WaterSimulation.drop x y st WaterSimulation.init))| := le_abs_self _
    _ ≤ totalAbsHeight (WaterSimulation.update^[n]
            (WaterSimulation.drop x y st WaterSimulation.init)) := abs_totalHeight_le _

/-- Witness for C2 (amended) at `n = 1`, drop at `(3, 3)` with strength 50. -/
theorem c2_water_energy_amended_witness :
    (0 : ℚ) < 50 ∧
    totalHeight
      (WaterSimulation.update^[1] (WaterSimulation.drop 3 3 50 WaterSimulation.init)) = 50 ∧
    (50 : ℚ) ≤ totalAbsHeight
      (WaterSimulation.update^[1] (WaterSimulation.drop 3 3 50 WaterSimulation.init)) := by
  have h := c2_water_energy_amended.2 1 3 3 50 (by norm_num) (by norm_num) (by norm_num)
    (by norm_num) (by norm_num)
  exact ⟨by norm_num, h.1, h.2⟩

set_option maxHeartbeats 4000000 in
theorem totalAbsHeight_dropped :
    totalAbsHeight (WaterSimulation.drop 3 3 50 WaterSimulation.init) = 50 := by
  unfold totalAbsHeight WaterSimulation.drop WaterSimulation.init
  norm_num [absIte, Finset.sum_range_succ, intToNatLit]

set_option maxHeartbeats 8000000 in
theorem totalAbsHeight_dropped_tick : totalAbsHeight
    (WaterSimulation.update (WaterSimulation.drop 3 3 50 WaterSimulation.init)) = 50 := by
  unfold totalAbsHeight WaterSimulation.update wNewVelocity wNeighbors WAVE_SPEED DAMPING
    WaterSimulation.drop WaterSimulation.init
  norm_num [absIte, Finset.sum_range_succ, intToNatLit, Int.toNat_one, Int.toNat_zero,
    List.map_cons, List.map_nil, List.sum_cons, List.sum_nil, List.length_cons, List.length_nil]

/-- C2 counterexample: after a single `drop(3, 3, 50)` on the all-zero field,
the very first `update` tick leaves the total absolute height exactly at 50
— it does not strictly decrease. -/
theorem c2_water_strict_decrease_counterexample :
    ¬ (totalAbsHeight
        (WaterSimulation.update (WaterSimulation.drop 3 3 50 WaterSimulation.init)) <
       totalAbsHeight (WaterSimulation.drop 3 3 50 WaterSimulation.init)) := by
  rw [totalAbsHeight_dropped, totalAbsHeight_dropped_tick]
  exact lt_irrefl 50

/-- C10: `drop` with out-of-range coordinates leaves both fields untouched;
with in-range coordinates it sets `height[y][x] = strength`, leaves every
other height cell unchanged, and leaves the whole velocity field unchanged. -/
theorem c10_drop_frame :
    (∀ (x y : ℤ) (st : ℚ) (s : WaterSimulation),
      ¬(0 ≤ x ∧ x < 8 ∧ 0 ≤ y ∧ y < 8) → WaterSimulation.drop x y st s = s)
  ∧ (∀ (x y : ℤ) (st : ℚ) (s : WaterSimulation),
      0 ≤ x → x < 8 → 0 ≤ y → y < 8 →
      (WaterSimulation.drop x y st s).height y.toNat x.toNat = st ∧
      (∀ y' x' : ℕ, ¬(y' = y.toNat ∧ x' = x.toNat) →
        (WaterSimulation.drop x y st s).height y' x' = s.height y' x') ∧
      (WaterSimulation.drop x y st s).velocity = s.velocity) := by
  constructor
  · intro x y st s h
    unfold WaterSimulation.drop
    rw [if_neg h]
  · intro x y st s hx1 hx2 hy1 hy2
    unfold WaterSimulation.drop
    rw [if_pos ⟨hx1, hx2, hy1, hy2⟩]
    refine ⟨by simp, ?_, rfl⟩
    intro y' x' h
    simp [h]

/-- Witness for C10: a drop at `x = 9` (out of range) is a no-op, and a drop
at `(3, 3)` writes the strength there. -/
theorem c10_drop_frame_witness :
    WaterSimulation.drop 9 0 50 WaterSimulation.init = WaterSimulation.init ∧
    (WaterSimulation.drop 3 3 50 WaterSimulation.init).height 3 3 = 50 := by
  have h2 := c10_drop_frame.2 3 3 50 WaterSimulation.init (by norm_num) (by norm_num)
    (by norm_num) (by norm_num)
  exact ⟨c10_drop_frame.1 9 0 50 WaterSimulation.init (by norm_num), h2.1⟩

-- =============================================================================
-- Theorems: ant claims (C6, C8, C9)
-- =============================================================================

theorem pyIdx_inRange (i : ℤ) (h1 : 0 ≤ i) (h2 : i < 8) :
    pyIdx i = some ⟨i.toNat, by omega⟩ := by
  unfold pyIdx
  rw [dif_pos ⟨h1, h2⟩]

theorem wrap8_inRange (i : ℤ) (h1 : 0 ≤ i) (h2 : i < 8) :
    wrap8 i = ⟨i.toNat, by omega⟩ := by
  unfold wrap8
  congr 1
  rw [Int.emod_eq_of_lt h1 h2]

theorem turn_right_intVal (d : Fin 4) :
    ((turn_right d).val : ℤ) = ((d.val : ℤ) + 1) % 4 := by
  unfold turn_right
  push_cast
  omega

theorem turn_left_intVal (d : Fin 4) :
    ((turn_left d).val : ℤ) = ((d.val : ℤ) - 1) % 4 := by
  unfold turn_left
  push_cast
  omega

theorem dirVec_eq (d : Fin 4) :
    dirVec d = if d.val = 0 then (0, -1) else if d.val = 1 then (1, 0)
      else if d.val = 2 then (0, 1) else (-1, 0) := by
  fin_cases d <;> rfl

theorem antMove_inRange (wrap : Bool) (a : Ant) (h : antInRange a) :
    antInRange (a.move wrap) := by
  obtain ⟨x, y, d, st⟩ := a
  obtain ⟨h1, h2, h3, h4⟩ := h
  simp only [antInRange] at *
  fin_cases d <;> cases wrap <;>
    simp [Ant.move, dirVec_eq] <;>
    first
      | omega
      | (split_ifs <;> omega)

theorem langton_step_ok (wrap : Bool) (s : LangtonAnt) (h : antInRange s.ant) :
    ∃ t, s.step wrap = some t ∧ antInRange t.ant := by
  obtain ⟨h1, h2, h3, h4⟩ := h
  unfold LangtonAnt.step
  rw [pyIdx_inRange s.ant.x h1 h2, pyIdx_inRange s.ant.y h3 h4]
  refine ⟨_, rfl, ?_⟩
  exact antMove_inRange wrap _ ⟨h1, h2, h3, h4⟩

theorem multiAntBody_ok (wrap : Bool) (g : Grid) (a : Ant) (h : antInRange a) :
    ∃ p, multiAntBody wrap g a = some p ∧ antInRange p.2 := by
  obtain ⟨h1, h2, h3, h4⟩ := h
  unfold multiAntBody
  rw [pyIdx_inRange a.x h1 h2, pyIdx_inRange a.y h3 h4]
  refine ⟨_, rfl, ?_⟩
  exact antMove_inRange wrap _ ⟨h1, h2, h3, h4⟩

theorem multiAnt_foldlM_ok (wrap : Bool) :
    ∀ (ants : List Ant) (g : Grid) (acc : List Ant),
      (∀ a ∈ ants, antInRange a) → (∀ a ∈ acc, antInRange a) →
      ∃ r, (ants.foldlM (fun (p : Grid × List Ant) a => do
              let q ← multiAntBody wrap p.1 a
              pure (q.1, p.2 ++ [q.2])) (g, acc)) = some r ∧
           ∀ a ∈ r.2, antInRange a := by
  intro ants
  induction ants with
  | nil =>
    intro g acc _ hacc
    exact ⟨(g, acc), rfl, hacc⟩
  | cons a rest ih =>
    intro g acc h hacc
    obtain ⟨p, hbody, hp⟩ := multiAntBody_ok wrap g a (h a (List.mem_cons_self a rest))
    rw [List.foldlM_cons, hbody]
    have hrest : ∀ b ∈ rest, antInRange b := fun b hb => h b (List.mem_cons_of_mem a hb)
    have hacc2 : ∀ b ∈ acc ++ [p.2], antInRange b := by
      intro b hb
      rcases List.mem_append.1 hb with hb | hb
      · exact hacc b hb
      · rw [List.mem_singleton.1 hb]; exact hp
    exact ih p.1 (acc ++ [p.2]) hrest hacc2

/-- C9: `Ant.move` keeps the ant inside the 8×8 grid in both wrap and bounce
modes from any in-range start, and consequently the grid accesses of
`LangtonAnt.step`, `ExtendedAnt.step` and `MultiAnt.step` never index
outside the grid: the classic and multi-ant steps always succeed with all
ants still in range, and the extended step never raises a grid
`IndexError` (its only possible failures concern the rule string) and keeps
the ant in range on success. -/
theorem c9_ant_moves_stay_in_range :
    (∀ (wrap : Bool) (a : Ant), antInRange a → antInRange (a.move wrap))
  ∧ (∀ (wrap : Bool) (s : LangtonAnt), antInRange s.ant →
      ∃ t, s.step wrap = some t ∧ antInRange t.ant)
  ∧ (∀ (wrap : Bool) (s : ExtendedAnt), antInRange s.ant →
      ExtendedAnt.step wrap s ≠ Except.error AntErr.gridOob ∧
      (∀ t, ExtendedAnt.step wrap s = Except.ok t → antInRange t.ant))
  ∧ (∀ (wrap : Bool) (s : MultiAnt), (∀ a ∈ s.ants, antInRange a) →
      ∃ t, s.step wrap = some t ∧ ∀ a ∈ t.ants, antInRange a) := by
  refine ⟨antMove_inRange, langton_step_ok, ?_, ?_⟩
  · intro wrap s h
    obtain ⟨h1, h2, h3, h4⟩ := h
    simp only [ExtendedAnt.step, pyIdx_inRange s.ant.x h1 h2, pyIdx_inRange s.ant.y h3 h4]
    cases hr : s.rules.get? (s.grid ⟨s.ant.y.toNat, by omega⟩ ⟨s.ant.x.toNat, by omega⟩) with
    | none =>
      simp only [hr]
      exact ⟨by simp, fun t ht => by simp at ht⟩
    | some c =>
      simp only [hr]
      by_cases hn : s.num_states = 0
      · rw [if_pos hn]
        exact ⟨by simp, fun t ht => by simp at ht⟩
      · rw [if_neg hn]
        refine ⟨by simp, ?_⟩
        intro t ht
        cases ht
        exact antMove_inRange wrap _ ⟨h1, h2, h3, h4⟩
  · intro wrap s h
    obtain ⟨r, hr, hall⟩ := multiAnt_foldlM_ok wrap s.ants s.grid [] h (by simp)
    unfold MultiAnt.step
    rw [hr]
    exact ⟨_, rfl, hall⟩

/-- Witness for C9: the default center ant stays in range after one bounce
move and one wrapped move. -/
theorem c9_ant_moves_stay_in_range_witness :
    antInRange Ant.start ∧ antInRange (Ant.start.move false) ∧
    antInRange (Ant.start.move true) := by
  have h : antInRange Ant.start := by decide
  exact ⟨h, c9_ant_moves_stay_in_range.1 false Ant.start h,
    c9_ant_moves_stay_in_range.1 true Ant.start h⟩

theorem antMoveWrap (a : Ant) : a.move true =
    { x := (a.x + (dirVec a.direction).1) % 8, y := (a.y + (dirVec a.direction).2) % 8,
      direction := a.direction, steps := a.steps + 1 } := by
  simp [Ant.move]

/-- C6: for an `ExtendedAnt` state whose rule string has the cached length
(`num_states = len(rules)`, as the constructor establishes), whose ant is in
range, and whose cell under the ant indexes a rule character `c`, one
`step()` in toroidal mode turns right (`(d+1) mod 4`) exactly when
`c = 'R'` and left (`(d-1) mod 4`) otherwise, advances that cell's paint
state to `(state+1) mod n`, leaves all other cells untouched, and then moves
the ant one cell in the new facing with both coordinates wrapped mod 8. -/
theorem c6_extended_ant_step :
    ∀ (s : ExtendedAnt) (c : Char),
      antInRange s.ant →
      s.num_states = s.rules.length →
      s.rules.get? (s.grid (wrap8 s.ant.y) (wrap8 s.ant.x)) = some c →
      ∃ t, ExtendedAnt.step true s = Except.ok t ∧
        ((t.ant.direction.val : ℤ) =
          (if c = 'R' then ((s.ant.direction.val : ℤ) + 1) % 4
           else ((s.ant.direction.val : ℤ) - 1) % 4)) ∧
        t.grid (wrap8 s.ant.y) (wrap8 s.ant.x) =
          (s.grid (wrap8 s.ant.y) (wrap8 s.ant.x) + 1) % s.rules.length ∧
        (∀ p q : Fin 8, ¬(p = wrap8 s.ant.y ∧ q = wrap8 s.ant.x) →
          t.grid p q = s.grid p q) ∧
        t.ant.x = (s.ant.x + (dirVec t.ant.direction).1) % 8 ∧
        t.ant.y = (s.ant.y + (dirVec t.ant.direction).2) % 8 ∧
        t.rules = s.rules ∧ t.num_states = s.num_states := by
  intro s c h hns hr
  obtain ⟨h1, h2, h3, h4⟩ := h
  rw [wrap8_inRange s.ant.x h1 h2, wrap8_inRange s.ant.y h3 h4] at hr ⊢
  have hlen : s.rules.length ≠ 0 := by
    intro h0
    rw [List.length_eq_zero.mp h0] at hr
    simp at hr
  have hn0 : s.num_states ≠ 0 := by rw [hns]; exact hlen
  simp only [ExtendedAnt.step, pyIdx_inRange s.ant.x h1 h2, pyIdx_inRange s.ant.y h3 h4, hr]
  rw [if_neg hn0]
  refine ⟨_, rfl, ?_, ?_, ?_, ?_, ?_, rfl, rfl⟩
  · simp only [antMoveWrap]
    by_cases hc : c = 'R' <;>
      simp [hc, turn_right_intVal, turn_left_intVal]
  · simp [setCell, hns]
  · intro p q hpq
    simp [setCell, hpq]
  · simp [antMoveWrap]
  · simp [antMoveWrap]

/-- Witness for C6: the classic rule string "RL" at the freshly constructed
center state; the rule read is 'R'. -/
theorem c6_extended_ant_step_witness :
    antInRange (ExtendedAnt.init ['R', 'L']).ant ∧
    ∃ t, ExtendedAnt.step true (ExtendedAnt.init ['R', 'L']) = Except.ok t ∧
      ((t.ant.direction.val : ℤ) =
        (if 'R' = 'R'
         then (((ExtendedAnt.init ['R', 'L']).ant.direction.val : ℤ) + 1) % 4
         else (((ExtendedAnt.init ['R', 'L']).ant.direction.val : ℤ) - 1) % 4)) ∧
      t.grid (wrap8 (ExtendedAnt.init ['R', 'L']).ant.y)
          (wrap8 (ExtendedAnt.init ['R', 'L']).ant.x) =
        ((ExtendedAnt.init ['R', 'L']).grid (wrap8 (ExtendedAnt.init ['R', 'L']).ant.y)
            (wrap8 (ExtendedAnt.init ['R', 'L']).ant.x) + 1) %
          (ExtendedAnt.init ['R', 'L']).rules.length ∧
      (∀ p q : Fin 8,
        ¬(p = wrap8 (ExtendedAnt.init ['R', 'L']).ant.y ∧
          q = wrap8 (ExtendedAnt.init ['R', 'L']).ant.x) →
        t.grid p q = (ExtendedAnt.init ['R', 'L']).grid p q) ∧
      t.ant.x = ((ExtendedAnt.init ['R', 'L']).ant.x + (dirVec t.ant.direction).1) % 8 ∧
      t.ant.y = ((ExtendedAnt.init ['R', 'L']).ant.y + (dirVec t.ant.direction).2) % 8 ∧
      t.rules = (ExtendedAnt.init ['R', 'L']).rules ∧
      t.num_states = (ExtendedAnt.init ['R', 'L']).num_states := by
  have h : antInRange (ExtendedAnt.init ['R', 'L']).ant := by decide
  exact ⟨h, c6_extended_ant_step (ExtendedAnt.init ['R', 'L']) 'R' h rfl (by decide)⟩

/-- C8 counterexample: constructing `ExtendedAnt` with the empty (invalid)
rule string succeeds — the constructor performs no validation and yields a
state with `num_states = 0` — and the failure only surfaces later, when the
first `step()` raises `IndexError` on the rule lookup. -/
theorem c8_no_validation_counterexample :
    (ExtendedAnt.init []).num_states = 0 ∧ (ExtendedAnt.init []).rules = [] ∧
    ExtendedAnt.step true (ExtendedAnt.init []) = Except.error AntErr.ruleOob :=
  ⟨rfl, rfl, rfl⟩

/-- C8 (amended): `ExtendedAnt.__init__` performs no validation and succeeds
on every rule string, recording it verbatim; the first `step()` on a fresh
state fails (rule-index error) exactly when the rule string is empty; and a
rule symbol other than 'R' (even an invalid one such as 'X') is silently
interpreted as a left turn rather than rejected. -/
theorem c8_rules_not_validated_amended :
    (∀ rules : List Char,
      (ExtendedAnt.init rules).num_states = rules.length ∧
      (ExtendedAnt.init rules).rules = rules)
  ∧ (∀ rules : List Char,
      (ExtendedAnt.step true (ExtendedAnt.init rules) = Except.error AntErr.ruleOob
        ↔ rules = []))
  ∧ (∀ c : Char, c ≠ 'R' →
      ∃ t, ExtendedAnt.step true (ExtendedAnt.init [c]) = Except.ok t ∧
        t.ant.direction = turn_left Ant.start.direction) := by
  refine ⟨fun rules => ⟨rfl, rfl⟩, ?_, ?_⟩
  · intro rules
    cases rules with
    | nil =>
      have hstep : ExtendedAnt.step true (ExtendedAnt.init []) =
          Except.error AntErr.ruleOob := rfl
      simp [hstep]
    | cons c cs =>
      simp [ExtendedAnt.step, ExtendedAnt.init, Ant.start, pyIdx]
  · intro c hc
    refine ⟨_, rfl, ?_⟩
    simp only [Ant.move]
    simp [hc]
    rfl

/-- Witness for C8 (amended): the invalid rule character 'X' is accepted and
acts as a left turn. -/
theorem c8_rules_not_validated_amended_witness :
    ('X' ≠ 'R') ∧
    ∃ t, ExtendedAnt.step true (ExtendedAnt.init ['X']) = Except.ok t ∧
      t.ant.direction = turn_left Ant.start.direction := by
  have h := c8_rules_not_validated_amended.2.2 'X' (by decide)
  exact ⟨by decide, h⟩

-- =============================================================================
-- Theorems: sand and hourglass claims (C3, C4)
-- =============================================================================

-- ---- list-level helpers ----

theorem find?_gid_map (f : SGrain → SGrain) (hf : ∀ a, (f a).gid = a.gid) :
    ∀ (l : List SGrain) (i : ℕ),
      (l.map f).find? (fun h => h.gid == i) = (l.find? (fun h => h.gid == i)).map f := by
  intro l i
  induction l with
  | nil => rfl
  | cons a t ih =>
    by_cases h : a.gid = i
    · rw [List.map_cons, List.find?_cons_of_pos _ (by simp [hf, h]),
        List.find?_cons_of_pos _ (by simp [h])]
      rfl
    · rw [List.map_cons, List.find?_cons_of_neg _ (by simp [hf, h]),
        List.find?_cons_of_neg _ (by simp [h])]
      exact ih

theorem findGrain_gid (s : PileState) (i : ℕ) (g : SGrain)
    (h : findGrain s i = some g) : g.gid = i := by
  have := List.find?_some h
  simpa using this

theorem findGrain_mem (s : PileState) (i : ℕ) (g : SGrain)
    (h : findGrain s i = some g) : g ∈ s.grains :=
  List.mem_of_find?_eq_some h

theorem findGrain_move_grain (s : PileState) (j nx ny i : ℕ) :
    findGrain (SandSimulation.move_grain s j nx ny) i =
      (findGrain s i).map (fun a => if a.gid = j then { a with x := nx, y := ny } else a) := by
  unfold SandSimulation.move_grain
  cases hj : findGrain s j with
  | none =>
    cases hi : findGrain s i with
    | none => rfl
    | some gi =>
      have hgi := findGrain_gid s i gi hi
      by_cases hij : i = j
      · rw [hij] at hi; rw [hi] at hj; cases hj
      · simp [hi, Option.map, if_neg (by omega : ¬ gi.gid = j)]
  | some gj =>
    show (s.grains.map _).find? _ = _
    rw [find?_gid_map _ (fun a => by by_cases h : a.gid = j <;> simp [h])]
    rfl

theorem findGrain_setSettled (s : PileState) (j : ℕ) (b : Bool) (i : ℕ) :
    findGrain (setSettled s j b) i =
      (findGrain s i).map (fun a => if a.gid = j then { a with settled := b } else a) := by
  show (s.grains.map _).find? _ = _
  rw [find?_gid_map _ (fun a => by by_cases h : a.gid = j <;> simp [h])]
  rfl

theorem sand_updateGrain_settled_frame (coin : Bool) (s : PileState) (g : SGrain) (j : ℕ)
    (hg : findGrain s g.gid = some g) (hs : g.settled = true) :
    findGrain (SandSimulation.updateGrain coin s j) g.gid = some g := by
  unfold SandSimulation.updateGrain
  cases hj : findGrain s j with
  | none => exact hg
  | some gj =>
    have hgj := findGrain_gid s j gj hj
    by_cases hsj : gj.settled = true
    · simp only [hsj, if_true]
      exact hg
    · have hne : ¬ g.gid = j := by
        intro he
        rw [he] at hg
        rw [hg] at hj
        cases hj
        rw [hs] at hsj
        exact hsj rfl
      have hmap : ∀ nx ny, findGrain (SandSimulation.move_grain s j nx ny) g.gid = some g := by
        intro nx ny
        rw [findGrain_move_grain, hg]
        simp [if_neg hne]
      have hset : findGrain (setSettled s j true) g.gid = some g := by
        rw [findGrain_setSettled, hg]
        simp [if_neg hne]
      simp only [hsj, if_false, Bool.false_eq_true]
      split_ifs <;> first
        | exact hmap _ _
        | exact hset
        | (split <;> first | (exact hmap _ _) | exact hset)

theorem sand_update_settled_frame (coins : ℕ → Bool) (s : PileState) (g : SGrain)
    (hg : findGrain s g.gid = some g) (hs : g.settled = true) :
    findGrain (SandSimulation.update coins s) g.gid = some g := by
  unfold SandSimulation.update
  have key : ∀ (l : List (ℕ × ℕ)) (st : PileState), findGrain st g.gid = some g →
      findGrain (l.foldl (fun st p => SandSimulation.updateGrain (coins p.1) st p.2) st)
        g.gid = some g := by
    intro l
    induction l with
    | nil => intro st h; exact h
    | cons p t ih =>
      intro st h
      exact ih _ (sand_updateGrain_settled_frame (coins p.1) st g p.2 h hs)
  exact key _ s hg

theorem can_move_to_setSettled (s : PileState) (j : ℕ) (b : Bool) (x y : ℤ) :
    Hourglass.can_move_to (setSettled s j b) x y = Hourglass.can_move_to s x y := rfl

theorem hg_updateGrain_unsettles (coin : Bool) (s : PileState) (g : SGrain)
    (hg : findGrain s g.gid = some g) (hs : g.settled = true)
    (hfree : ∃ t ∈ Hourglass.get_gravity_targets s.flipped coin g.x g.y,
      Hourglass.can_move_to s t.1 t.2 = true) :
    ∃ g', findGrain (Hourglass.updateGrain coin s g.gid) g.gid = some g' ∧
      g'.settled = false ∧
      ((g'.x : ℤ), (g'.y : ℤ)) ∈ Hourglass.get_gravity_targets s.flipped coin g.x g.y := by
  unfold Hourglass.updateGrain
  have hcanFall : (Hourglass.get_gravity_targets s.flipped coin g.x g.y).any
      (fun t => Hourglass.can_move_to s t.1 t.2) = true := by
    rw [List.any_eq_true]
    obtain ⟨t, ht, hc⟩ := hfree
    exact ⟨t, ht, hc⟩
  simp only [hg, hs, hcanFall, Bool.not_true, Bool.and_false, Bool.false_eq_true, if_false]
  have hfind : ∃ t0, (Hourglass.get_gravity_targets s.flipped coin g.x g.y).find?
      (fun t => Hourglass.can_move_to (setSettled s g.gid false) t.1 t.2) = some t0 := by
    rw [Option.isSome_iff_exists.symm, List.find?_isSome]
    obtain ⟨t, ht, hc⟩ := hfree
    exact ⟨t, ht, by rw [can_move_to_setSettled]; exact hc⟩
  obtain ⟨t0, ht0⟩ := hfind
  have ht0mem : t0 ∈ Hourglass.get_gravity_targets s.flipped coin g.x g.y :=
    List.mem_of_find?_eq_some ht0
  have ht0can := List.find?_some ht0
  have hbounds : 0 ≤ t0.1 ∧ t0.1 < 8 ∧ 0 ≤ t0.2 ∧ t0.2 < 8 := by
    simp only [Hourglass.can_move_to, Bool.and_eq_true, decide_eq_true_eq] at ht0can
    exact ⟨ht0can.1.1.1.1, ht0can.1.1.1.2, ht0can.1.1.2.1, ht0can.1.1.2.2⟩
  simp only [ht0]
  have hg2 : findGrain (setSettled s g.gid false) g.gid =
      some { g with settled := false } := by
    rw [findGrain_setSettled, hg]
    simp
  refine ⟨{ gid := g.gid, x := t0.1.toNat, y := t0.2.toNat, settled := false }, ?_, rfl, ?_⟩
  · rw [Hourglass.move_grain, findGrain_move_grain, hg2]
    simp
  · have hx : ((t0.1.toNat : ℤ)) = t0.1 := Int.toNat_of_nonneg hbounds.1
    have hy : ((t0.2.toNat : ℤ)) = t0.2 := Int.toNat_of_nonneg hbounds.2.2.1
    simpa [hx, hy] using ht0mem

/-- C3 counterexample: in `c3State` — a waterfall-mode state in which the
settled grain 2 sits at `(7,6)` with the cell `(7,7)` below it freed by the
outlet removal — an `update()` tick leaves the grain settled and unmoved:
`SandSimulation.update` never re-evaluates a grain whose settled flag is set
(`if grain.settled: continue`), so it does not become unsettled even though
its straight-down target is free. -/
theorem c3_settled_skipped_counterexample :
    c3State.grid 7 7 = none ∧
    findGrain c3State 2 = some ⟨2, 7, 6, true⟩ ∧
    findGrain (SandSimulation.update (fun _ => false) c3State) 2 = some ⟨2, 7, 6, true⟩ ∧
    (SandSimulation.update (fun _ => false) c3State).grid 7 7 = none :=
  ⟨rfl, rfl, rfl, rfl⟩

/-- C3 (amended): settled grains are re-evaluated every tick only in the
HOURGLASS simulation, not in the sand simulation. In
`SandSimulation.update`, a grain with the settled flag set is skipped
outright and its record (position and flag) survives the tick unchanged.
In `Hourglass.update`, the per-grain processing re-checks every settled
grain against its gravity targets, and when some target is free the grain
becomes unsettled and moves into one of the targets that tick. -/
theorem c3_settled_reevaluation_amended :
    (∀ (coins : ℕ → Bool) (s : PileState) (g : SGrain),
      findGrain s g.gid = some g → g.settled = true →
      findGrain (SandSimulation.update coins s) g.gid = some g)
  ∧ (∀ (coin : Bool) (s : PileState) (g : SGrain),
      findGrain s g.gid = some g → g.settled = true →
      (∃ t ∈ Hourglass.get_gravity_targets s.flipped coin g.x g.y,
        Hourglass.can_move_to s t.1 t.2 = true) →
      ∃ g', findGrain (Hourglass.updateGrain coin s g.gid) g.gid = some g' ∧
        g'.settled = false ∧
        ((g'.x : ℤ), (g'.y : ℤ)) ∈ Hourglass.get_gravity_targets s.flipped coin g.x g.y) :=
  ⟨sand_update_settled_frame, hg_updateGrain_unsettles⟩

/-- Witness for C3 (amended): the settled sand grain of `c3State` survives
a tick unchanged, and the settled hourglass grain of `hgDemoState` (free
cell below) unsettles and moves. -/
theorem c3_settled_reevaluation_amended_witness :
    findGrain c3State 2 = some ⟨2, 7, 6, true⟩ ∧
    findGrain (SandSimulation.update (fun _ => false) c3State) 2 = some ⟨2, 7, 6, true⟩ ∧
    (∃ t ∈ Hourglass.get_gravity_targets hgDemoState.flipped false 3 1,
      Hourglass.can_move_to hgDemoState t.1 t.2 = true) ∧
    ∃ g', findGrain (Hourglass.updateGrain false hgDemoState 0) 0 = some g' ∧
      g'.settled = false ∧
      ((g'.x : ℤ), (g'.y : ℤ)) ∈ Hourglass.get_gravity_targets hgDemoState.flipped false 3 1 := by
  have hfree : ∃ t ∈ Hourglass.get_gravity_targets hgDemoState.flipped false 3 1,
      Hourglass.can_move_to hgDemoState t.1 t.2 = true := by
    refine ⟨((3 : ℤ), (2 : ℤ)), ?_, ?_⟩
    · simp [Hourglass.get_gravity_targets, hgDemoState]
    · norm_num [Hourglass.can_move_to, in_hourglass, hgDemoState, absIte, intToNatLit]
  refine ⟨rfl, c3_settled_reevaluation_amended.1 (fun _ => false) c3State ⟨2, 7, 6, true⟩ rfl rfl, hfree, ?_⟩
  exact c3_settled_reevaluation_amended.2 false hgDemoState ⟨0, 3, 1, true⟩ rfl rfl hfree

theorem invCore_map (s s' : PileState) (f : SGrain → SGrain)
    (hgid : ∀ a, (f a).gid = a.gid) (hfx : ∀ a, (f a).x = a.x) (hfy : ∀ a, (f a).y = a.y)
    (hgrains : s'.grains = s.grains.map f) (hgrid : s'.grid = s.grid)
    (hinv : PileInvCore s) : PileInvCore s' := by
  obtain ⟨hnd, hslots, hback⟩ := hinv
  refine ⟨?_, ?_, ?_⟩
  · rw [hgrains, List.map_map]
    have hcomp : SGrain.gid ∘ f = SGrain.gid := funext hgid
    rw [hcomp]
    exact hnd
  · intro g hg
    rw [hgrains] at hg
    obtain ⟨a, ha, rfl⟩ := List.mem_map.mp hg
    simp only [hgrid, hgid a, hfx a, hfy a]
    exact hslots a ha
  · intro y x i hsome
    rw [hgrid] at hsome
    obtain ⟨a, ha, h1, h2, h3⟩ := hback y x i hsome
    refine ⟨f a, ?_, by rw [hgid a]; exact h1,
      by rw [hfx a]; exact h2, by rw [hfy a]; exact h3⟩
    rw [hgrains]
    exact List.mem_map_of_mem f ha

theorem setSettled_invCore (s : PileState) (i : ℕ) (b : Bool)
    (hinv : PileInvCore s) : PileInvCore (setSettled s i b) := by
  refine invCore_map s _ _ ?_ ?_ ?_ rfl rfl hinv <;>
    intro a <;> by_cases h : a.gid = i <;> simp [h]

theorem move_grain_invCore (s : PileState) (i nx ny : ℕ) (g : SGrain)
    (hinv : PileInvCore s) (hg : findGrain s i = some g)
    (hnx : nx < 8) (hny : ny < 8) (hfree : s.grid ny nx = none) :
    PileInvCore (SandSimulation.move_grain s i nx ny) := by
  obtain ⟨hnd, hslots, hback⟩ := hinv
  have hgid := findGrain_gid s i g hg
  have hmem := findGrain_mem s i g hg
  have hgslot := (hslots g hmem).2.2
  have hne : ¬(ny = g.y ∧ nx = g.x) := by
    rintro ⟨e1, e2⟩
    rw [e1, e2, hgslot] at hfree
    cases hfree
  unfold SandSimulation.move_grain
  simp only [hg]
  refine ⟨?_, ?_, ?_⟩
  · show ((s.grains.map _).map SGrain.gid).Nodup
    rw [List.map_map]
    have hcomp : (SGrain.gid ∘ fun g' =>
        if g'.gid = i then { g' with x := nx, y := ny } else g') = SGrain.gid := by
      funext a
      by_cases h : a.gid = i <;> simp [h]
    rw [hcomp]
    exact hnd
  · intro g' hg'
    obtain ⟨a, ha, rfl⟩ := List.mem_map.mp hg'
    by_cases hai : a.gid = i
    · have haeq : a = g := List.inj_on_of_nodup_map hnd ha hmem (by rw [hai, hgid])
      subst haeq
      simp only [hai, if_pos rfl]
      refine ⟨hnx, hny, ?_⟩
      show setSlot (setSlot s.grid a.x a.y none) nx ny (some i) ny nx = _
      simp [setSlot, hai]
    · simp only [hai, if_neg, if_false]
      obtain ⟨h1, h2, h3⟩ := hslots a ha
      refine ⟨h1, h2, ?_⟩
      show setSlot (setSlot s.grid g.x g.y none) nx ny (some i) a.y a.x = some a.gid
      have hc1 : ¬(a.y = ny ∧ a.x = nx) := by
        rintro ⟨e1, e2⟩
        rw [e1, e2] at h3
        rw [hfree] at h3
        cases h3
      have hc2 : ¬(a.y = g.y ∧ a.x = g.x) := by
        rintro ⟨e1, e2⟩
        rw [e1, e2, hgslot] at h3
        have : a.gid = g.gid := by
          have := h3
          injection this
          omega
        exact hai (by rw [this, hgid])
      simp only [setSlot, if_neg hc1, if_neg hc2]
      exact h3
  · intro y x i' hsome
    simp only [setSlot] at hsome
    by_cases hc1 : y = ny ∧ x = nx
    · rw [if_pos hc1] at hsome
      have hii : i = i' := by injection hsome
      refine ⟨{ g with x := nx, y := ny }, ?_, ?_, ?_, ?_⟩
      · have : (fun g' => if g'.gid = i then { g' with x := nx, y := ny } else g') g
            = { g with x := nx, y := ny } := by simp [hgid]
        rw [← this]
        exact List.mem_map_of_mem _ hmem
      · show g.gid = i'
        omega
      · show nx = x
        omega
      · show ny = y
        omega
    · rw [if_neg hc1] at hsome
      by_cases hc2 : y = g.y ∧ x = g.x
      · rw [if_pos hc2] at hsome
        cases hsome
      · rw [if_neg hc2] at hsome
        obtain ⟨a, ha, h1, h2, h3⟩ := hback y x i' hsome
        have hai : ¬ a.gid = i := by
          intro he
          have haeq : a = g := List.inj_on_of_nodup_map hnd ha hmem (by rw [he, hgid])
          subst haeq
          exact hc2 ⟨h3.symm, h2.symm⟩
        have : (fun g' => if g'.gid = i then { g' with x := nx, y := ny } else g') a = a := by
          simp [hai]
        exact ⟨a, by rw [← this]; exact List.mem_map_of_mem _ ha, h1, h2, h3⟩

theorem sand_updateGrain_invCore (coin : Bool) (s : PileState) (j : ℕ)
    (hinv : PileInvCore s) : PileInvCore (SandSimulation.updateGrain coin s j) := by
  unfold SandSimulation.updateGrain
  cases hj : findGrain s j with
  | none => exact hinv
  | some gj =>
    simp only
    by_cases hsj : gj.settled = true
    · simp only [hsj, if_true]
      exact hinv
    · simp only [hsj, if_false, Bool.false_eq_true]
      by_cases h1 : gj.y + 1 < 8 ∧ s.grid (gj.y + 1) gj.x = none
      · rw [if_pos h1]
        exact move_grain_invCore s j gj.x (gj.y + 1) gj hinv hj
          (hinv.2.1 gj (findGrain_mem s j gj hj)).1 h1.1 h1.2
      · rw [if_neg h1]
        by_cases h2 : gj.y + 1 < 8
        · rw [if_pos h2]
          cases hdx : (if coin then [(-1 : ℤ), 1] else [1, -1]).find? (fun dx =>
              decide (0 ≤ (gj.x : ℤ) + dx) && decide ((gj.x : ℤ) + dx < 8) &&
              (s.grid (gj.y + 1) ((gj.x : ℤ) + dx).toNat).isNone) with
          | none =>
            simp only [hdx]
            exact setSettled_invCore s j true hinv
          | some dx =>
            simp only [hdx]
            have hcond := List.find?_some hdx
            simp only [Bool.and_eq_true, decide_eq_true_eq,
              Option.isNone_iff_eq_none] at hcond
            refine move_grain_invCore s j ((gj.x : ℤ) + dx).toNat (gj.y + 1) gj hinv hj
              ?_ h2 hcond.2
            omega
        · rw [if_neg h2]
          exact setSettled_invCore s j true hinv

theorem sand_update_invCore (coins : ℕ → Bool) (s : PileState)
    (hinv : PileInvCore s) : PileInvCore (SandSimulation.update coins s) := by
  unfold SandSimulation.update
  have key : ∀ (l : List (ℕ × ℕ)) (st : PileState), PileInvCore st →
      PileInvCore (l.foldl (fun st p => SandSimulation.updateGrain (coins p.1) st p.2) st) := by
    intro l
    induction l with
    | nil => intro st h; exact h
    | cons p t ih =>
      intro st h
      exact ih _ (sand_updateGrain_invCore (coins p.1) st p.2 h)
  exact key _ s hinv

theorem pileInv_split (s : PileState) :
    PileInv s ↔ PileInvCore s ∧ (∀ g ∈ s.grains, g.gid < s.grain_count) := by
  unfold PileInv PileInvCore
  tauto

theorem move_grain_gids (s : PileState) (i nx ny : ℕ) :
    (SandSimulation.move_grain s i nx ny).grains.map SGrain.gid =
      s.grains.map SGrain.gid ∧
    (SandSimulation.move_grain s i nx ny).grain_count = s.grain_count := by
  unfold SandSimulation.move_grain
  cases hj : findGrain s i with
  | none => exact ⟨rfl, rfl⟩
  | some g =>
    refine ⟨?_, rfl⟩
    show (s.grains.map _).map SGrain.gid = _
    rw [List.map_map]
    congr 1
    funext a
    by_cases h : a.gid = i <;> simp [h]

theorem setSettled_gids (s : PileState) (i : ℕ) (b : Bool) :
    (setSettled s i b).grains.map SGrain.gid = s.grains.map SGrain.gid ∧
    (setSettled s i b).grain_count = s.grain_count := by
  refine ⟨?_, rfl⟩
  show (s.grains.map _).map SGrain.gid = _
  rw [List.map_map]
  congr 1
  funext a
  by_cases h : a.gid = i <;> simp [h]

theorem sand_updateGrain_gids (coin : Bool) (s : PileState) (j : ℕ) :
    (SandSimulation.updateGrain coin s j).grains.map SGrain.gid =
      s.grains.map SGrain.gid ∧
    (SandSimulation.updateGrain coin s j).grain_count = s.grain_count := by
  unfold SandSimulation.updateGrain
  cases hj : findGrain s j with
  | none => exact ⟨rfl, rfl⟩
  | some gj =>
    simp only
    split_ifs <;>
      first
        | exact ⟨rfl, rfl⟩
        | exact move_grain_gids s j _ _
        | exact setSettled_gids s j true
        | (split <;>
            first
              | exact move_grain_gids s j _ _
              | exact setSettled_gids s j true)

theorem count_bound_of_gids (s s' : PileState)
    (hg : s'.grains.map SGrain.gid = s.grains.map SGrain.gid)
    (hc : s'.grain_count = s.grain_count)
    (hb : ∀ g ∈ s.grains, g.gid < s.grain_count) :
    ∀ g ∈ s'.grains, g.gid < s'.grain_count := by
  intro g hgm
  have hmem : g.gid ∈ s'.grains.map SGrain.gid := List.mem_map_of_mem _ hgm
  rw [hg] at hmem
  obtain ⟨a, ha, he⟩ := List.mem_map.mp hmem
  rw [hc, ← he]
  exact hb a ha

theorem sand_update_gids (coins : ℕ → Bool) (s : PileState) :
    (SandSimulation.update coins s).grains.map SGrain.gid = s.grains.map SGrain.gid ∧
    (SandSimulation.update coins s).grain_count = s.grain_count := by
  unfold SandSimulation.update
  have key : ∀ (l : List (ℕ × ℕ)) (st : PileState),
      (l.foldl (fun st p => SandSimulation.updateGrain (coins p.1) st p.2) st).grains.map
        SGrain.gid = st.grains.map SGrain.gid ∧
      (l.foldl (fun st p => SandSimulation.updateGrain (coins p.1) st p.2) st).grain_count
        = st.grain_count := by
    intro l
    induction l with
    | nil => intro st; exact ⟨rfl, rfl⟩
    | cons p t ih =>
      intro st
      rw [List.foldl_cons]
      obtain ⟨ha, hb⟩ := ih (SandSimulation.updateGrain (coins p.1) st p.2)
      obtain ⟨hc, hd⟩ := sand_updateGrain_gids (coins p.1) st p.2
      exact ⟨by rw [ha, hc], by rw [hb, hd]⟩
  exact key _ s

theorem spawn_grain_inv (s : PileState) (x : ℕ) (hx : x < 8) (hfree : s.grid 0 x = none)
    (hinv : PileInv s) : PileInv (SandSimulation.spawn_grain x s) := by
  obtain ⟨hnd, hslots, hback, hbound⟩ := hinv
  unfold SandSimulation.spawn_grain PileInv
  refine ⟨?_, ?_, ?_, ?_⟩
  · show ((s.grains ++ [(⟨s.grain_count, x, 0, false⟩ : SGrain)]).map SGrain.gid).Nodup
    rw [List.map_append, List.nodup_append]
    refine ⟨hnd, by simp, ?_⟩
    intro a ha hb
    simp only [List.map_cons, List.map_nil, List.mem_singleton] at hb
    obtain ⟨g, hg, he⟩ := List.mem_map.mp ha
    have := hbound g hg
    omega
  · intro g hg
    rcases List.mem_append.mp hg with hg | hg
    · obtain ⟨h1, h2, h3⟩ := hslots g hg
      refine ⟨h1, h2, ?_⟩
      show setSlot s.grid x 0 (some s.grain_count) g.y g.x = some g.gid
      have hc : ¬(g.y = 0 ∧ g.x = x) := by
        rintro ⟨e1, e2⟩
        rw [e1, e2, hfree] at h3
        cases h3
      simp only [setSlot, if_neg hc]
      exact h3
    · rw [List.mem_singleton.mp hg]
      exact ⟨hx, by show (0:ℕ) < 8; decide, by simp [setSlot]⟩
  · intro y x' i h
    simp only [setSlot] at h
    by_cases hc : y = 0 ∧ x' = x
    · rw [if_pos hc] at h
      injection h with h
      refine ⟨⟨s.grain_count, x, 0, false⟩,
        List.mem_append_right _ (List.mem_singleton_self _), by simp [h],
        by simp [hc.2], by simp [hc.1]⟩
    · rw [if_neg hc] at h
      obtain ⟨a, ha, h1, h2, h3⟩ := hback y x' i h
      exact ⟨a, List.mem_append_left _ ha, h1, h2, h3⟩
  · intro g hg
    show g.gid < s.grain_count + 1
    rcases List.mem_append.mp hg with hg | hg
    · have := hbound g hg
      omega
    · rw [List.mem_singleton.mp hg]
      simp

theorem waterfallRemove_inv (s : PileState) (hinv : PileInv s) :
    PileInv (waterfallRemove s) := by
  obtain ⟨hnd, hslots, hback, hbound⟩ := hinv
  unfold waterfallRemove PileInv
  refine ⟨?_, ?_, ?_, ?_⟩
  · show ((s.grains.filter _).map SGrain.gid).Nodup
    exact ((List.filter_sublist s.grains).map SGrain.gid).nodup hnd
  · intro g hg
    have hgm := List.mem_of_mem_filter hg
    have hcond := List.of_mem_filter hg
    simp only [Bool.not_eq_eq_eq_not, Bool.not_true, Bool.and_eq_false_iff,
      beq_eq_false_iff_ne] at hcond
    obtain ⟨h1, h2, h3⟩ := hslots g hgm
    refine ⟨h1, h2, ?_⟩
    by_cases hany : s.grains.any (fun g => g.x == 7 && g.y == 7) = true
    · simp only [hany, if_true]
      have hc : ¬(g.y = 7 ∧ g.x = 7) := by
        rintro ⟨e1, e2⟩
        rcases hcond with h | h <;> omega
      simp only [setSlot, if_neg hc]
      exact h3
    · simp only [hany, if_false, Bool.false_eq_true]
      exact h3
  · intro y x i h
    by_cases hany : s.grains.any (fun g => g.x == 7 && g.y == 7) = true
    · rw [if_pos hany] at h
      simp only [setSlot] at h
      by_cases hc : y = 7 ∧ x = 7
      · rw [if_pos hc] at h
        cases h
      · rw [if_neg hc] at h
        obtain ⟨a, ha, h1, h2, h3⟩ := hback y x i h
        refine ⟨a, List.mem_filter.mpr ⟨ha, ?_⟩, h1, h2, h3⟩
        simp only [Bool.not_eq_eq_eq_not, Bool.not_true, Bool.and_eq_false_iff,
          beq_eq_false_iff_ne]
        by_cases hx7 : a.x = 7
        · right; intro hy7; exact hc ⟨by omega, by omega⟩
        · left; exact hx7
    · rw [if_neg hany] at h
      obtain ⟨a, ha, h1, h2, h3⟩ := hback y x i h
      refine ⟨a, List.mem_filter.mpr ⟨ha, ?_⟩, h1, h2, h3⟩
      simp only [List.any_eq_true, not_exists, not_and] at hany
      have := hany a ha
      simp only [Bool.not_eq_eq_eq_not, Bool.not_true, Bool.and_eq_false_iff,
        beq_eq_false_iff_ne]
      rcases Bool.and_eq_false_iff.mp (Bool.eq_false_iff.mpr (this)) with h' | h'
      · left; exact beq_eq_false_iff_ne.mp h'
      · right; exact beq_eq_false_iff_ne.mp h'
  · intro g hg
    exact hbound g (List.mem_of_mem_filter hg)

theorem hg_updateGrain_invCore (coin : Bool) (s : PileState) (j : ℕ)
    (hinv : PileInvCore s) : PileInvCore (Hourglass.updateGrain coin s j) := by
  unfold Hourglass.updateGrain
  cases hj : findGrain s j with
  | none => exact hinv
  | some gj =>
    simp only
    by_cases hskip : (gj.settled && !((Hourglass.get_gravity_targets s.flipped coin gj.x gj.y).any
        fun t => Hourglass.can_move_to s t.1 t.2)) = true
    · rw [if_pos hskip]
      exact hinv
    · rw [if_neg hskip]
      have hinv' : PileInvCore (setSettled s j false) := setSettled_invCore s j false hinv
      cases hfind : (Hourglass.get_gravity_targets s.flipped coin gj.x gj.y).find?
          (fun t => Hourglass.can_move_to (setSettled s j false) t.1 t.2) with
      | none =>
        simp only [hfind]
        exact setSettled_invCore s j true hinv
      | some t0 =>
        simp only [hfind]
        have hcan := List.find?_some hfind
        simp only [Hourglass.can_move_to, Bool.and_eq_true, decide_eq_true_eq,
          Option.isNone_iff_eq_none] at hcan
        rw [Hourglass.move_grain]
        refine move_grain_invCore (setSettled s j false) j t0.1.toNat t0.2.toNat
          { gj with settled := false } hinv' ?_ ?_ ?_ ?_
        · rw [findGrain_setSettled, hj]
          simp [findGrain_gid s j gj hj]
        · omega
        · omega
        · exact hcan.2

theorem hg_update_invCore (coins : ℕ → Bool) (s : PileState)
    (hinv : PileInvCore s) : PileInvCore (Hourglass.update coins s) := by
  unfold Hourglass.update
  have hbase : PileInvCore { s with frame := s.frame + 1 } := hinv
  have key : ∀ (l : List (ℕ × ℕ)) (st : PileState), PileInvCore st →
      PileInvCore (l.foldl (fun st p => Hourglass.updateGrain (coins p.1) st p.2) st) := by
    intro l
    induction l with
    | nil => intro st h; exact h
    | cons p t ih =>
      intro st h
      exact ih _ (hg_updateGrain_invCore (coins p.1) st p.2 h)
  exact key _ _ hbase

theorem hg_flip_invCore (s : PileState) (hinv : PileInvCore s) :
    PileInvCore (Hourglass.flip s) := by
  refine invCore_map s _ _ ?_ ?_ ?_ rfl rfl hinv <;> intro a <;> rfl

theorem foldl_setSlot_lookup :
    ∀ (l : List SGrain) (g0 : ℕ → ℕ → Option ℕ) (y x : ℕ),
      (l.map (fun gr => (gr.x, gr.y))).Nodup →
      (l.foldl (fun g gr => setSlot g gr.x gr.y (some gr.gid)) g0) y x
        = match l.find? (fun gr => gr.x == x && gr.y == y) with
          | some gr => some gr.gid
          | none => g0 y x := by
  intro l
  induction l with
  | nil =>
    intro g0 y x _
    rfl
  | cons a t ih =>
    intro g0 y x hnd
    rw [List.map_cons, List.nodup_cons] at hnd
    rw [List.foldl_cons]
    by_cases hc : a.x = x ∧ a.y = y
    · rw [List.find?_cons_of_pos _ (by simp [hc.1, hc.2])]
      rw [ih _ y x hnd.2]
      have hnone : t.find? (fun gr => gr.x == x && gr.y == y) = none := by
        rw [List.find?_eq_none]
        intro b hb
        simp only [Bool.and_eq_true, beq_iff_eq, not_and]
        intro e1 e2
        exact absurd
          (by simpa [e1, e2, hc.1, hc.2] using
            List.mem_map_of_mem (fun gr : SGrain => (gr.x, gr.y)) hb)
          hnd.1
      simp only [hnone]
      simp [setSlot, hc.1, hc.2]
    · rw [List.find?_cons_of_neg _
        (by simp only [Bool.and_eq_true, beq_iff_eq]; exact hc)]
      rw [ih _ y x hnd.2]
      cases hft : t.find? (fun gr => gr.x == x && gr.y == y) with
      | some gr => simp only [hft]
      | none =>
        simp only [hft]
        simp only [setSlot]
        rw [if_neg (fun h => hc ⟨h.2.symm, h.1.symm⟩)]

theorem find?_coords_of_mem : ∀ (l : List SGrain) (g : SGrain),
    (l.map (fun h => (h.x, h.y))).Nodup → g ∈ l →
    l.find? (fun h => h.x == g.x && h.y == g.y) = some g := by
  intro l g
  induction l with
  | nil =>
    intro _ h
    cases h
  | cons a t ih =>
    intro hnd hm
    rw [List.map_cons, List.nodup_cons] at hnd
    rcases List.mem_cons.mp hm with rfl | hm
    · rw [List.find?_cons_of_pos _ (by simp)]
    · have hne : ¬(a.x = g.x ∧ a.y = g.y) := by
        rintro ⟨e1, e2⟩
        exact hnd.1 (by
          simpa [e1, e2] using List.mem_map_of_mem (fun h : SGrain => (h.x, h.y)) hm)
      rw [List.find?_cons_of_neg _
        (by simp only [Bool.and_eq_true, beq_iff_eq]; exact hne)]
      exact ih hnd.2 hm

theorem hg_fill_invCore (cells : List (ℕ × ℕ)) (s : PileState)
    (hnd : cells.Nodup) (hin : ∀ c ∈ cells, c.1 < 8 ∧ c.2 < 8) :
    PileInvCore (Hourglass.fill cells s) := by
  unfold Hourglass.fill PileInvCore
  simp only
  have hcoords : ((cells.take 20).enum.map
        (fun p => (⟨p.1, p.2.1, p.2.2, true⟩ : SGrain))).map (fun g => (g.x, g.y))
      = cells.take 20 := by
    rw [List.map_map]
    have hco : ((fun g : SGrain => (g.x, g.y)) ∘
        fun p : ℕ × (ℕ × ℕ) => (⟨p.1, p.2.1, p.2.2, true⟩ : SGrain)) = Prod.snd := by
      funext p
      simp
    rw [hco, List.enum_map_snd]
  have hgids : ((cells.take 20).enum.map
        (fun p => (⟨p.1, p.2.1, p.2.2, true⟩ : SGrain))).map SGrain.gid
      = List.range (cells.take 20).length := by
    rw [List.map_map]
    have hco : (SGrain.gid ∘
        fun p : ℕ × (ℕ × ℕ) => (⟨p.1, p.2.1, p.2.2, true⟩ : SGrain)) = Prod.fst := by
      funext p
      rfl
    rw [hco, List.enum_map_fst]
  have hchnd : (cells.take 20).Nodup := hnd.sublist (List.take_sublist 20 cells)
  have hcoordnd : (((cells.take 20).enum.map
      (fun p => (⟨p.1, p.2.1, p.2.2, true⟩ : SGrain))).map (fun g => (g.x, g.y))).Nodup := by
    rw [hcoords]
    exact hchnd
  refine ⟨?_, ?_, ?_⟩
  · rw [hgids]
    exact List.nodup_range _
  · intro g hg
    have hcmem : (g.x, g.y) ∈ cells.take 20 := by
      rw [← hcoords]
      exact List.mem_map_of_mem _ hg
    have hrange := hin _ (List.take_subset 20 cells hcmem)
    refine ⟨hrange.1, hrange.2, ?_⟩
    rw [foldl_setSlot_lookup _ _ _ _ hcoordnd,
      find?_coords_of_mem _ g hcoordnd hg]
  · intro y x i h
    rw [foldl_setSlot_lookup _ _ _ _ hcoordnd] at h
    cases hft : ((cells.take 20).enum.map
        (fun p => (⟨p.1, p.2.1, p.2.2, true⟩ : SGrain))).find?
        (fun gr => gr.x == x && gr.y == y) with
    | none =>
      rw [hft] at h
      cases h
    | some gr =>
      rw [hft] at h
      have hmem := List.mem_of_find?_eq_some hft
      have hprop := List.find?_some hft
      simp only [Bool.and_eq_true, beq_iff_eq] at hprop
      injection h with h
      exact ⟨gr, hmem, h, hprop.1, hprop.2⟩

theorem sandReach_inv : ∀ s, SandReach s → PileInv s := by
  intro s h
  induction h with
  | init =>
    unfold PileInv SandSimulation.init
    refine ⟨by simp, by simp, ?_, by simp⟩
    intro y x i h
    exact Option.noConfusion h
  | spawn x hr hx hfree ih => exact spawn_grain_inv _ x hx hfree ih
  | update coins hr ih =>
    rw [pileInv_split] at ih ⊢
    obtain ⟨hgids, hcount⟩ := sand_update_gids coins _
    exact ⟨sand_update_invCore coins _ ih.1,
      count_bound_of_gids _ _ hgids hcount ih.2⟩
  | remove hr ih => exact waterfallRemove_inv _ ih
  | move i nx ny g hr hg hnx hny hfree ih =>
    rw [pileInv_split] at ih ⊢
    obtain ⟨hgids, hcount⟩ := move_grain_gids _ i nx ny
    exact ⟨move_grain_invCore _ i nx ny g ih.1 hg hnx hny hfree,
      count_bound_of_gids _ _ hgids hcount ih.2⟩

theorem hgReach_invCore : ∀ s, HgReach s → PileInvCore s := by
  intro s h
  induction h with
  | fill cells s hnd hin => exact hg_fill_invCore cells s hnd hin
  | update coins hr ih => exact hg_update_invCore coins _ ih
  | flip hr ih => exact hg_flip_invCore _ ih

theorem move_grain_transfer (s : PileState) (i nx ny : ℕ) (g : SGrain)
    (hg : findGrain s i = some g) (hne : ¬(nx = g.x ∧ ny = g.y)) :
    (SandSimulation.move_grain s i nx ny).grid g.y g.x = none ∧
    (SandSimulation.move_grain s i nx ny).grid ny nx = some i ∧
    findGrain (SandSimulation.move_grain s i nx ny) i =
      some { g with x := nx, y := ny } := by
  refine ⟨?_, ?_, ?_⟩
  · unfold SandSimulation.move_grain
    simp only [hg]
    show setSlot (setSlot s.grid g.x g.y none) nx ny (some i) g.y g.x = none
    have hc : ¬(g.y = ny ∧ g.x = nx) := by
      rintro ⟨e1, e2⟩
      exact hne ⟨e2.symm, e1.symm⟩
    simp [setSlot, hc]
  · unfold SandSimulation.move_grain
    simp only [hg]
    show setSlot (setSlot s.grid g.x g.y none) nx ny (some i) ny nx = some i
    simp [setSlot]
  · rw [findGrain_move_grain, hg]
    simp [findGrain_gid s i g hg]

theorem slot_unique (s : PileState) (hinv : PileInvCore s) :
    ∀ y1 x1 y2 x2 i, s.grid y1 x1 = some i → s.grid y2 x2 = some i →
      y1 = y2 ∧ x1 = x2 := by
  intro y1 x1 y2 x2 i h1 h2
  obtain ⟨a, ha, ha1, ha2, ha3⟩ := hinv.2.2 y1 x1 i h1
  obtain ⟨b, hb, hb1, hb2, hb3⟩ := hinv.2.2 y2 x2 i h2
  have hab : a = b := List.inj_on_of_nodup_map hinv.1 ha hb (by rw [ha1, hb1])
  subst hab
  omega

/-- C4: in every sand-simulation state reachable through spawning, update
ticks, outlet removal, and guarded moves, and in every hourglass state
reachable through chamber fills, update ticks, and flips, the grain/grid
ownership invariant holds: grain ids are unique, `grid[y][x]` holds grain
`G` iff `G.x = x` and `G.y = y`, and no two slots reference the same grain
(slot uniqueness). `move_grain` — the same code in both classes — performs
the transfer as one step of the semantics: old slot cleared, new slot set,
grain coordinates updated, with no other effect and no intermediate state,
as the shallow embedding's single-function transfer shows. -/
theorem c4_ownership_invariant :
    (∀ s, SandReach s → PileInv s)
  ∧ (∀ s, HgReach s → PileInvCore s)
  ∧ (∀ s, PileInvCore s → ∀ y1 x1 y2 x2 i,
      s.grid y1 x1 = some i → s.grid y2 x2 = some i → y1 = y2 ∧ x1 = x2)
  ∧ (∀ (s : PileState) (i nx ny : ℕ) (g : SGrain),
      findGrain s i = some g → ¬(nx = g.x ∧ ny = g.y) →
      (SandSimulation.move_grain s i nx ny).grid g.y g.x = none ∧
      (SandSimulation.move_grain s i nx ny).grid ny nx = some i ∧
      findGrain (SandSimulation.move_grain s i nx ny) i =
        some { g with x := nx, y := ny })
  ∧ Hourglass.move_grain = SandSimulation.move_grain :=
  ⟨sandReach_inv, hgReach_invCore, slot_unique, move_grain_transfer, rfl⟩

/-- Witness for C4: the invariant holds at the freshly constructed sand
state and a one-cell hourglass fill, and a concrete `move_grain` clears the
old slot and sets the new one. -/
theorem c4_ownership_invariant_witness :
    PileInv SandSimulation.init ∧
    PileInvCore (Hourglass.fill [(3, 0)] SandSimulation.init) ∧
    (SandSimulation.move_grain c3State 2 7 7).grid 6 7 = none ∧
    (SandSimulation.move_grain c3State 2 7 7).grid 7 7 = some 2 := by
  have hmv := c4_ownership_invariant.2.2.2.1 c3State 2 7 7 ⟨2, 7, 6, true⟩ rfl (by simp)
  refine ⟨c4_ownership_invariant.1 _ SandReach.init, c4_ownership_invariant.2.1 _ ?_, hmv.1, hmv.2.1⟩
  exact HgReach.fill [(3, 0)] _ (by simp) (by simp)
